import Mathlib

/-!
Shallow embedding of the Bookie-Exchange backend (FastAPI + SQLAlchemy) core:
the valuation engine (`app/services/book_valuation.py`), the cycle guard
(`app/services/circular_exchange.py`), and the exchange state machine spread
over the request handlers (`app/routes/exchange.py`, `app/routes/books.py`,
`app/routes/payment.py`, `app/routes/auth.py`).

Modelling conventions:
* Database tables are Lean lists in insertion order; `db.query(...).first()`
  becomes `List.find?`; mutating a fetched ORM row becomes `updateFirst`.
* Machine integers are `Int`/`Nat`; Python floats in the valuation formulas
  are `ℚ` (every constant in the source - 0.5, 2.0, 0.2, 20.0, the condition
  multipliers - is a small dyadic/decimal rational); Python `round` is
  round-half-to-even (`pyRound`).
* Every handler raises (HTTPException) strictly before its first
  `db.commit()`, and the `get_db` dependency closes - hence rolls back - the
  session on an exception, so an error leaves persisted state unchanged.
  Handlers are therefore embedded as `DB → Except Err DB`, the error case
  standing for "exception raised, persisted state = pre-state".
* The external pricing oracle (`get_openai_pricing`) is an effectful
  dependency; its outcome is passed as an `Option Int` argument (`none` =
  disabled / unavailable / failed, exactly the fallback path in the source).
-/

namespace Bookie

/-- `ExchangeStatus` enum from `app/models/exchange.py`. -/
inductive ExchangeStatus where
  | pending
  | approved
  | rejected
  | completed
  | cancelled
  | disputed
deriving DecidableEq, Repr

/-- `PointTransactionType` enum from `app/models/points.py`. -/
inductive PointTransactionType where
  | earned
  | redeemed
  | purchased
  | refunded
  | bonus
deriving DecidableEq, Repr

/-- `PaymentStatus` enum from `app/models/payment.py`. -/
inductive PaymentStatus where
  | pending
  | processing
  | completed
  | failed
  | refunded
deriving DecidableEq, Repr

/-- Row of the `users` table (`app/models/user.py`); the fields the engine
reads and writes. -/
structure UserR where
  id : Nat
  username : String
  email : String
  pointsBalance : Int
deriving DecidableEq, Repr

/-- Row of the `books` table (`app/models/book.py`). -/
structure BookR where
  id : Nat
  ownerId : Nat
  title : String
  author : String
  condition : String
  pointValue : Int
  isAvailable : Bool
deriving DecidableEq, Repr

/-- Row of the `wishlists` table (`app/models/book.py`), as read by
`calculate_demand_score`. -/
structure WishlistR where
  id : Nat
  bookId : Nat
  userId : Nat
deriving DecidableEq, Repr

/-- Row of the `exchange_requests` table (`app/models/exchange.py`). -/
structure ExchangeRequestR where
  id : Nat
  bookId : Nat
  requesterId : Nat
  ownerId : Nat
  status : ExchangeStatus
  pointsCost : Int
  message : Option String
deriving DecidableEq, Repr

/-- Row of the `point_transactions` table (`app/models/points.py`). -/
structure PointTransactionR where
  userId : Nat
  amount : Int
  transactionType : PointTransactionType
  relatedExchangeId : Option Nat
deriving DecidableEq, Repr

/-- Row of the `exchange_disputes` table (`app/models/exchange.py`);
`status` is a plain string in the source ("open", "investigating",
"resolved", "closed"). -/
structure ExchangeDisputeR where
  id : Nat
  exchangeId : Nat
  reportedById : Nat
  reason : String
  description : String
  status : String
deriving DecidableEq, Repr

/-- Row of the `payment_transactions` table (`app/models/payment.py`). -/
structure PaymentTransactionR where
  id : Nat
  userId : Nat
  pointsAmount : Int
  status : PaymentStatus
  transactionId : String
deriving DecidableEq, Repr

/-- The persisted state: one list per table, in insertion order, plus the
autoincrement counters of the primary keys. -/
structure DB where
  users : List UserR
  books : List BookR
  exchanges : List ExchangeRequestR
  transactions : List PointTransactionR
  disputes : List ExchangeDisputeR
  payments : List PaymentTransactionR
  wishlists : List WishlistR
  nextUserId : Nat
  nextBookId : Nat
  nextExchangeId : Nat
  nextDisputeId : Nat
  nextPaymentId : Nat
deriving DecidableEq, Repr

/-- The freshly initialised database (`app/core/db_init.py` creates empty
tables; no rows are seeded). -/
def initDB : DB :=
  { users := [], books := [], exchanges := [], transactions := [],
    disputes := [], payments := [], wishlists := [],
    nextUserId := 1, nextBookId := 1, nextExchangeId := 1,
    nextDisputeId := 1, nextPaymentId := 1 }

/-- Update the first row matching `p` (SQLAlchemy: fetch with `.first()`,
mutate the returned object). -/
def updateFirst (p : α → Bool) (f : α → α) : List α → List α
  | [] => []
  | a :: as => if p a then f a :: as else a :: updateFirst p f as

/-- One raise site per constructor; each handler's `HTTPException`s are
pairwise distinguished by their detail message in the source. -/
inductive Err where
  | userNotFound
  | emailExists
  | usernameTaken
  | passwordTooShort
  | duplicateBook
  | invalidPointsAmount
  | invalidPrice
  | paymentNotFound
  | bookNotFound
  | bookUnavailable
  | selfExchange
  | circularExchange
  | insufficientPoints
  | exchangeNotFound
  | notBookOwner
  | requesterInsufficientPoints
  | notPartOfExchange
  | cannotCancelStatus
  | cannotDisputeStatus
  | openDisputeExists
  | notBookOwnerRecalc
deriving DecidableEq, Repr

/-- Persisted state after a handler returns: the new state on success, the
pre-state on an exception (the session is rolled back by `get_db`). -/
def postState (r : Except Err DB) (pre : DB) : DB :=
  match r with
  | .ok db => db
  | .error _ => pre

/-- Python `str.lower()` / SQL `func.lower` on the ASCII range, written over
the character list so that the kernel can evaluate it (Lean's own
`String.toLower` maps the same `Char.toLower` over the string). -/
def lowerString (s : String) : String :=
  ⟨s.data.map Char.toLower⟩

/-- Python `str.strip()`: drop leading and trailing whitespace, written over
the character list so that the kernel can evaluate it. -/
def stripString (s : String) : String :=
  ⟨((s.data.dropWhile Char.isWhitespace).reverse.dropWhile
      Char.isWhitespace).reverse⟩

/-! ### Valuation engine (`app/services/book_valuation.py`) -/

/-- Python `round` with no digits argument: round half to even. -/
def pyRound (q : ℚ) : Int :=
  let f : Int := ⌊q⌋
  let r : ℚ := q - f
  if r < 1/2 then f
  else if 1/2 < r then f + 1
  else if f % 2 = 0 then f else f + 1

/-- `calculate_demand_score`: wishlist entries weight 0.5, pending/approved
requests weight 2.0, completed exchanges weight 0.2, capped to [0,1] by
dividing by 20. -/
def calculate_demand_score (bookId : Nat) (db : DB) : ℚ :=
  let wishlistCount : ℚ :=
    ((db.wishlists.filter (fun w => w.bookId == bookId)).length : ℚ)
  let exchangeRequestsCount : ℚ :=
    ((db.exchanges.filter (fun e =>
      e.bookId == bookId &&
        (e.status == ExchangeStatus.pending ||
          e.status == ExchangeStatus.approved))).length : ℚ)
  let completedExchanges : ℚ :=
    ((db.exchanges.filter (fun e =>
      e.bookId == bookId && e.status == ExchangeStatus.completed)).length : ℚ)
  let demandScore : ℚ :=
    wishlistCount * (1/2) + exchangeRequestsCount * 2 + completedExchanges * (1/5)
  min (demandScore / 20) 1

/-- `calculate_rarity_score`: 1 / (1 + (available copies of the same
title+author, case-insensitive, minus 1)); a zero count is coerced to 1 by
the `.scalar() or 1` in the source. -/
def calculate_rarity_score (bookId : Nat) (db : DB) : ℚ :=
  match db.books.find? (fun b => b.id == bookId) with
  | none => 1/2
  | some book =>
    let sameBooksCount : Nat :=
      (db.books.filter (fun b =>
        lowerString b.title == lowerString book.title &&
          lowerString b.author == lowerString book.author &&
          b.isAvailable == true)).length
    let sameBooksCount : Nat := if sameBooksCount = 0 then 1 else sameBooksCount
    1 / (1 + ((sameBooksCount : ℚ) - 1))

/-- `calculate_condition_multiplier`: {excellent 1.0, good 0.8, fair 0.6,
poor 0.4}, default 0.6. -/
def calculate_condition_multiplier (condition : String) : ℚ :=
  if lowerString condition == "excellent" then 1
  else if lowerString condition == "good" then 4/5
  else if lowerString condition == "fair" then 3/5
  else if lowerString condition == "poor" then 2/5
  else 3/5

/-- Condition-indexed default base points used when no explicit base and no
oracle suggestion is available: {excellent 15, good 12, fair 8, poor 5,
default 10} (`base_points_map` inside `calculate_book_value`). -/
def basePointsMap (condition : String) : Int :=
  if lowerString condition == "excellent" then 15
  else if lowerString condition == "good" then 12
  else if lowerString condition == "fair" then 8
  else if lowerString condition == "poor" then 5
  else 10

/-- `calculate_book_value(book_id, db, base_points, use_ai)`.
`aiBasePoints` is the outcome of `get_openai_pricing` (`none` when the
oracle is disabled, unavailable, or failed; the source falls back silently).
Returns 10 when the book row is absent, otherwise
`max(1, round(base * conditionMultiplier * (1 + 0.5*demand + 0.5*rarity)))`. -/
def calculate_book_value (bookId : Nat) (db : DB)
    (basePointsArg : Option Int) (aiBasePoints : Option Int) : Int :=
  match db.books.find? (fun b => b.id == bookId) with
  | none => 10
  | some book =>
    let basePoints : Int :=
      match basePointsArg with
      | some b => b
      | none =>
        match aiBasePoints with
        | some a => a
        | none => basePointsMap book.condition
    let conditionMultiplier := calculate_condition_multiplier book.condition
    let demandScore := calculate_demand_score bookId db
    let rarityScore := calculate_rarity_score bookId db
    let demandBonus := demandScore * (1/2)
    let rarityBonus := rarityScore * (1/2)
    let baseValue : ℚ := (basePoints : ℚ) * conditionMultiplier
    let finalValue : ℚ := baseValue * (1 + demandBonus + rarityBonus)
    max 1 (pyRound finalValue)

/-- `update_book_value`: recompute and persist a book's `point_value`;
returns 0 and writes nothing when the book is absent. -/
def update_book_value (bookId : Nat) (aiBasePoints : Option Int) (db : DB) :
    Int × DB :=
  match db.books.find? (fun b => b.id == bookId) with
  | none => (0, db)
  | some _ =>
    let newValue := calculate_book_value bookId db none aiBasePoints
    (newValue,
      { db with
        books := updateFirst (fun b => b.id == bookId)
          (fun b => { b with pointValue := newValue }) db.books })

/-! ### Cycle guard (`app/services/circular_exchange.py`)

The `ExchangeGraph` is a Python dict `user_id -> [user_ids]`; it is embedded
as an insertion-ordered association list. The recursive `dfs` helper shares
the mutable `visited` / `rec_stack` sets across calls, so the embedding
threads them through explicitly; the recursion depth is bounded by the
number of distinct nodes, so a fuel parameter larger than the graph's total
size makes the fuel case unreachable. -/

/-- Adjacency: insertion-ordered association list standing for the Python
dict `self.graph`. -/
abbrev Graph := List (Nat × List Nat)

/-- `self.graph.get(node, [])`. -/
def graphGet (g : Graph) (node : Nat) : List Nat :=
  match g.find? (fun p => p.1 == node) with
  | some p => p.2
  | none => []

/-- `add_edge`: create the key if absent, then append the target unless it
is already a neighbour. -/
def addEdge (g : Graph) (fromUser toUser : Nat) : Graph :=
  let g := if (g.find? (fun p => p.1 == fromUser)).isSome then g
           else g ++ [(fromUser, [])]
  g.map (fun p =>
    if p.1 == fromUser then
      (p.1, if toUser ∈ p.2 then p.2 else p.2 ++ [toUser])
    else p)

/-- Edge insertion as done inside `would_create_cycle`: create the key if
absent, then `append` unconditionally (no duplicate check there). -/
def appendEdge (g : Graph) (fromUser toUser : Nat) : Graph :=
  let g := if (g.find? (fun p => p.1 == fromUser)).isSome then g
           else g ++ [(fromUser, [])]
  g.map (fun p => if p.1 == fromUser then (p.1, p.2 ++ [toUser]) else p)

/-- The body of `dfs(node)` from `ExchangeGraph.has_cycle`, with the shared
mutable sets passed explicitly: add `node` to `visited` and `rec_stack`,
scan the neighbours (recursing into unvisited ones, reporting a cycle on a
neighbour that is on the recursion stack), and pop `node` from `rec_stack`
when no cycle was found. The `for neighbor in ...` loop with its early
`return True` is a fold whose accumulator carries the verdict together with
the two sets and ignores the remaining neighbours once the verdict is true,
so on a `true` result the sets are returned as they stood at discovery. The
fuel argument only bounds the nesting depth of `dfs` calls (each level adds
an unvisited node to `visited`, so the depth never exceeds the number of
distinct nodes); the caller chooses it larger than the graph can need. -/
def dfsNode (g : Graph) :
    Nat → Nat → List Nat → List Nat → Bool × List Nat × List Nat
  | 0, _, visited, recStack => (false, visited, recStack)
  | fuel + 1, node, visited, recStack =>
    let folded := (graphGet g node).foldl
      (fun acc n =>
        match acc with
        | (true, v, s) => (true, v, s)
        | (false, v, s) =>
          if n ∈ v then
            if n ∈ s then (true, v, s) else (false, v, s)
          else dfsNode g fuel n v s)
      (false, node :: visited, node :: recStack)
    match folded with
    | (true, v, s) => (true, v, s)
    | (false, v, s) => (false, v, s.erase node)

/-- Fuel bound: one unit per association-list entry and per adjacency
element, plus slack; the DFS nesting depth never exceeds the number of
distinct nodes, which this dominates. -/
def graphSize (g : Graph) : Nat :=
  (g.map (fun p => p.2.length + 1)).sum + 1

/-- `ExchangeGraph.has_cycle(start_user)`: DFS from `start_user` with empty
`visited` / `rec_stack`. -/
def has_cycle (g : Graph) (startUser : Nat) : Bool :=
  (dfsNode g (graphSize g) startUser [] []).1

/-- `ExchangeGraph.would_create_cycle`: temporarily append the candidate
edge and test `has_cycle` from `from_user` (the removal of the temporary
edge has no bearing on the returned Bool in a pure embedding). -/
def would_create_cycle (g : Graph) (fromUser toUser : Nat) : Bool :=
  has_cycle (appendEdge g fromUser toUser) fromUser

/-- `build_exchange_graph`: edges `requester -> owner` of every PENDING or
APPROVED exchange request, optionally excluding one request id. The source
guards the exclusion with Python truthiness (`if exclude_exchange_id:`), so
an id of 0 behaves like `None`. -/
def build_exchange_graph (db : DB) (excludeExchangeId : Option Nat) : Graph :=
  let reqs := db.exchanges.filter (fun e =>
    (e.status == ExchangeStatus.pending ||
      e.status == ExchangeStatus.approved) &&
    (match excludeExchangeId with
     | some i => if i ≠ 0 then e.id ≠ i else true
     | none => true))
  reqs.foldl (fun g e => addEdge g e.requesterId e.ownerId) []

/-- Message returned with a positive `check_circular_exchange` verdict. -/
def circularMessage : String :=
  "This exchange would create a circular exchange pattern between you and the book owner, which is not allowed to prevent point farming."

/-- `check_circular_exchange(requester_id, owner_id, db, exclude)`:
self-requests are defined non-circular; otherwise build the active-edge
graph and test whether the candidate edge closes a cycle. -/
def check_circular_exchange (requesterId ownerId : Nat) (db : DB)
    (excludeExchangeId : Option Nat) : Bool × String :=
  if requesterId == ownerId then (false, "")
  else
    let g := build_exchange_graph db excludeExchangeId
    if would_create_cycle g requesterId ownerId then (true, circularMessage)
    else (false, "")

/-! ### Handlers

Each handler is the corresponding FastAPI route, restricted to the columns
the exchange engine reads or writes (pure CRUD columns such as
descriptions, images, timestamps and history notes are elided). The
authenticated caller (`Depends(get_current_user)`) is the `currentUserId`
argument; absence of that row models a failed authentication dependency. -/

/-- `signup` (`app/routes/auth.py`): reject an existing email, then an
existing username, then a password shorter than 6 characters; insert a user
row with `points_balance = 0` and no ledger entry. -/
def register (username email password : String) (db : DB) : Except Err DB :=
  if (db.users.find? (fun u => u.email == email)).isSome then
    .error .emailExists
  else if (db.users.find? (fun u => u.username == username)).isSome then
    .error .usernameTaken
  else if password.length < 6 then
    .error .passwordTooShort
  else .ok { db with
    users := db.users ++
      [{ id := db.nextUserId, username := username, email := email,
         pointsBalance := 0 }],
    nextUserId := db.nextUserId + 1 }

/-- `create_book` (`app/routes/books.py`): one digital identity per
(owner, title, author); the stored value starts from the client-supplied
`point_value`, else the oracle suggestion, else the condition default;
award 10 listing points with a matching EARNED ledger entry; finally
`update_book_value` recomputes and persists the value on the committed
state. -/
def createBook (currentUserId : Nat) (title author condition : String)
    (pointValueArg : Option Int) (aiBasePoints : Option Int) (db : DB) :
    Except Err DB :=
  match db.users.find? (fun u => u.id == currentUserId) with
  | none => .error .userNotFound
  | some _ =>
    if (db.books.find? (fun b =>
        b.ownerId == currentUserId &&
        lowerString b.title == lowerString (stripString title) &&
        lowerString b.author == lowerString (stripString author))).isSome then
      .error .duplicateBook
    else
    let pointValue : Int :=
      match pointValueArg with
      | some v => v
      | none =>
        match aiBasePoints with
        | some a => a
        | none => basePointsMap condition
    let newBook : BookR :=
      { id := db.nextBookId, ownerId := currentUserId,
        title := stripString title, author := stripString author, condition := condition,
        pointValue := pointValue, isAvailable := true }
    let db1 : DB :=
      { db with
        books := db.books ++ [newBook],
        nextBookId := db.nextBookId + 1,
        users := updateFirst (fun u => u.id == currentUserId)
          (fun u => { u with pointsBalance := u.pointsBalance + 10 })
          db.users,
        transactions := db.transactions ++
          [⟨currentUserId, 10, .earned, none⟩] }
    .ok (update_book_value newBook.id aiBasePoints db1).2

/-- `POINT_PRICING` table (`app/routes/payment.py`). -/
def pointPricing (pointsAmount : Int) : Option ℚ :=
  if pointsAmount = 100 then some 5
  else if pointsAmount = 250 then some 10
  else if pointsAmount = 500 then some 18
  else if pointsAmount = 1000 then some 30
  else none

/-- `purchase_points` (`app/routes/payment.py`): validate the amount against
`POINT_PRICING` and the USD price within 0.01; the simulated gateway marks
the payment COMPLETED immediately, adds the points to the cached balance and
appends a PURCHASED ledger entry. `transactionId` stands for the generated
`TXN-{uuid}` string. -/
def purchasePoints (currentUserId : Nat) (pointsAmount : Int) (amountUsd : ℚ)
    (transactionId : String) (db : DB) : Except Err DB :=
  match db.users.find? (fun u => u.id == currentUserId) with
  | none => .error .userNotFound
  | some _ =>
    match pointPricing pointsAmount with
    | none => .error .invalidPointsAmount
    | some expectedPrice =>
      if 1/100 < |amountUsd - expectedPrice| then
        .error .invalidPrice
      else .ok { db with
        payments := db.payments ++
          [{ id := db.nextPaymentId, userId := currentUserId,
             pointsAmount := pointsAmount, status := .completed,
             transactionId := transactionId }],
        nextPaymentId := db.nextPaymentId + 1,
        users := updateFirst (fun u => u.id == currentUserId)
          (fun u => { u with pointsBalance := u.pointsBalance + pointsAmount })
          db.users,
        transactions := db.transactions ++
          [⟨currentUserId, pointsAmount, .purchased, none⟩] }

/-- `payment_webhook` (`app/routes/payment.py`): look the payment up by its
gateway transaction id, overwrite its status, and when the update is a
transition into COMPLETED and the user row exists, add the points to the
cached balance with a matching PURCHASED ledger entry. -/
def paymentWebhook (transactionId : String) (newStatus : PaymentStatus)
    (db : DB) : Except Err DB :=
  match db.payments.find? (fun p => p.transactionId == transactionId) with
  | none => .error .paymentNotFound
  | some transaction =>
    let oldStatus := transaction.status
    let db1 := { db with
      payments := updateFirst (fun p => p.transactionId == transactionId)
        (fun p => { p with status := newStatus }) db.payments }
    if newStatus == .completed && !(oldStatus == .completed) then
      match db1.users.find? (fun u => u.id == transaction.userId) with
      | some user =>
        .ok { db1 with
          users := updateFirst (fun u => u.id == transaction.userId)
            (fun u =>
              { u with pointsBalance := u.pointsBalance + transaction.pointsAmount })
            db1.users,
          transactions := db1.transactions ++
            [⟨transaction.userId, transaction.pointsAmount, .purchased, none⟩] }
      | none => .ok db1
    else
      .ok db1

/-- `create_exchange_request` (`app/routes/exchange.py`): book present,
available, not the caller's own, cycle guard clear, and the caller's cached
balance at least the book's current value; then flip the book unavailable
and insert a PENDING request snapshotting `points_cost` (no ledger entry at
creation). -/
def createExchange (currentUserId : Nat) (bookId : Nat)
    (message : Option String) (db : DB) : Except Err DB :=
  match db.users.find? (fun u => u.id == currentUserId) with
  | none => .error .userNotFound
  | some currentUser =>
    match db.books.find? (fun b => b.id == bookId) with
    | none => .error .bookNotFound
    | some book =>
      if !book.isAvailable then
        .error .bookUnavailable
      else if book.ownerId == currentUserId then
        .error .selfExchange
      else if (check_circular_exchange currentUserId book.ownerId db none).1 then
        .error .circularExchange
      else if currentUser.pointsBalance < book.pointValue then
        .error .insufficientPoints
      else .ok { db with
        books := updateFirst (fun b => b.id == bookId)
          (fun b => { b with isAvailable := false }) db.books,
        exchanges := db.exchanges ++
          [{ id := db.nextExchangeId, bookId := book.id,
             requesterId := currentUserId, ownerId := book.ownerId,
             status := .pending, pointsCost := book.pointValue,
             message := message }],
        nextExchangeId := db.nextExchangeId + 1 }

/-- Tail of the `approval.approve` branch of `approve_exchange`, after the
optional requester debit: credit the previous owner when that row exists
(EARNED ledger entry plus cached balance), then set the exchange status to
COMPLETED. -/
def completeApproval (exchange : ExchangeRequestR) (oldOwnerId : Nat)
    (db : DB) : DB :=
  let db3 :=
    match db.users.find? (fun u => u.id == oldOwnerId) with
    | some oldOwner =>
      { db with
        users := updateFirst (fun u => u.id == oldOwnerId)
          (fun u =>
            { u with pointsBalance := u.pointsBalance + exchange.pointsCost })
          db.users,
        transactions := db.transactions ++
          [({ userId := oldOwnerId, amount := exchange.pointsCost,
              transactionType := .earned,
              relatedExchangeId := some exchange.id } : PointTransactionR)] }
    | none => db
  { db3 with
    exchanges := updateFirst (fun e => e.id == exchange.id)
      (fun e => { e with status := .completed }) db3.exchanges }

/-- `approve_exchange` (`app/routes/exchange.py`): only the exchange's
recorded owner may decide; the handler never inspects the exchange's
current status. Approve: transfer book ownership to the requester and mark
it available, debit the requester (REDEEMED entry) only when that user row
exists and passes the balance re-check, credit the previous owner (EARNED
entry) when that row exists, and set the status to COMPLETED. Reject: set
the status to REJECTED and mark the book available when it exists. -/
def approveExchange (exchangeId : Nat) (currentUserId : Nat) (approve : Bool)
    (db : DB) : Except Err DB :=
  match db.users.find? (fun u => u.id == currentUserId) with
  | none => .error .userNotFound
  | some _ =>
    match db.exchanges.find? (fun e => e.id == exchangeId) with
    | none => .error .exchangeNotFound
    | some exchange =>
      if !(exchange.ownerId == currentUserId) then
        .error .notBookOwner
      else if approve then
        match db.books.find? (fun b => b.id == exchange.bookId) with
        | none => .error .bookNotFound
        | some book =>
          let oldOwnerId := book.ownerId
          let db1 := { db with
            books := updateFirst (fun b => b.id == exchange.bookId)
              (fun b =>
                { b with ownerId := exchange.requesterId, isAvailable := true })
              db.books }
          match db1.users.find? (fun u => u.id == exchange.requesterId) with
          | some requester =>
            if requester.pointsBalance < exchange.pointsCost then
              .error .requesterInsufficientPoints
            else
              let db2 := { db1 with
                users := updateFirst (fun u => u.id == exchange.requesterId)
                  (fun u =>
                    { u with
                      pointsBalance := u.pointsBalance - exchange.pointsCost })
                  db1.users,
                transactions := db1.transactions ++
                  [⟨exchange.requesterId, -exchange.pointsCost, .redeemed,
                    some exchange.id⟩] }
              .ok (completeApproval exchange oldOwnerId db2)
          | none => .ok (completeApproval exchange oldOwnerId db1)
      else
        let db1 := { db with
          exchanges := updateFirst (fun e => e.id == exchangeId)
            (fun e => { e with status := .rejected }) db.exchanges }
        match db1.books.find? (fun b => b.id == exchange.bookId) with
        | some _ =>
          .ok { db1 with
            books := updateFirst (fun b => b.id == exchange.bookId)
              (fun b => { b with isAvailable := true }) db1.books }
        | none => .ok db1

/-- `cancel_exchange` (`app/routes/exchange.py`): either party may cancel,
but only a PENDING request; the book (when present) becomes available again
and the status becomes CANCELLED; no ledger effect. -/
def cancelExchange (exchangeId : Nat) (currentUserId : Nat) (db : DB) :
    Except Err DB :=
  match db.users.find? (fun u => u.id == currentUserId) with
  | none => .error .userNotFound
  | some _ =>
    match db.exchanges.find? (fun e => e.id == exchangeId) with
    | none => .error .exchangeNotFound
    | some exchange =>
      if !(exchange.requesterId == currentUserId) &&
          !(exchange.ownerId == currentUserId) then
        .error .notPartOfExchange
      else if !(exchange.status == .pending) then
        .error .cannotCancelStatus
      else
      let db1 :=
        match db.books.find? (fun b => b.id == exchange.bookId) with
        | some _ =>
          { db with
            books := updateFirst (fun b => b.id == exchange.bookId)
              (fun b => { b with isAvailable := true }) db.books }
        | none => db
      .ok { db1 with
        exchanges := updateFirst (fun e => e.id == exchangeId)
          (fun e => { e with status := .cancelled }) db1.exchanges }

/-- `create_dispute` (`app/routes/exchange.py`): either party, only from
APPROVED or COMPLETED, and only when no open dispute exists for the
exchange; insert an open dispute and set the exchange status to DISPUTED. -/
def createDispute (currentUserId : Nat) (exchangeId : Nat)
    (reason description : String) (db : DB) : Except Err DB :=
  match db.users.find? (fun u => u.id == currentUserId) with
  | none => .error .userNotFound
  | some _ =>
    match db.exchanges.find? (fun e => e.id == exchangeId) with
    | none => .error .exchangeNotFound
    | some exchange =>
      if !(exchange.requesterId == currentUserId) &&
          !(exchange.ownerId == currentUserId) then
        .error .notPartOfExchange
      else if !(exchange.status == .approved || exchange.status == .completed) then
        .error .cannotDisputeStatus
      else if (db.disputes.find? (fun d =>
          d.exchangeId == exchangeId && d.status == "open")).isSome then
        .error .openDisputeExists
      else .ok { db with
        exchanges := updateFirst (fun e => e.id == exchangeId)
          (fun e => { e with status := .disputed }) db.exchanges,
        disputes := db.disputes ++
          [{ id := db.nextDisputeId, exchangeId := exchangeId,
             reportedById := currentUserId, reason := reason,
             description := description, status := "open" }],
        nextDisputeId := db.nextDisputeId + 1 }

/-- `recalculate_book_value` (`app/routes/books.py`): book present and owned
by the caller; then `update_book_value` recomputes and persists the value.
There is no check of the book's `is_available` flag on this path. -/
def recalculateBookValue (bookId : Nat) (currentUserId : Nat)
    (aiBasePoints : Option Int) (db : DB) : Except Err DB :=
  match db.users.find? (fun u => u.id == currentUserId) with
  | none => .error .userNotFound
  | some _ =>
    match db.books.find? (fun b => b.id == bookId) with
    | none => .error .bookNotFound
    | some book =>
      if !(book.ownerId == currentUserId) then
        .error .notBookOwnerRecalc
      else .ok (update_book_value bookId aiBasePoints db).2

/-! ### Reachable states and the ledger invariant -/

/-- States reachable from the freshly initialised database by the engine's
operations: `signup`, `create_book`, `purchase_points`, `payment_webhook`,
`create_exchange_request`, `approve_exchange`, `cancel_exchange`,
`create_dispute`, and the owner's explicit `recalculate-value` request.
Each step takes the handler's post-state: the new state on success, the
rolled-back pre-state on an exception. -/
inductive Reachable : DB → Prop where
  | init : Reachable initDB
  | step_register (username email password : String) {db : DB} :
      Reachable db →
      Reachable (postState (register username email password db) db)
  | step_createBook (uid : Nat) (title author condition : String)
      (pointValueArg aiBasePoints : Option Int) {db : DB} :
      Reachable db →
      Reachable (postState
        (createBook uid title author condition pointValueArg aiBasePoints db) db)
  | step_purchasePoints (uid : Nat) (amount : Int) (usd : ℚ) (txid : String)
      {db : DB} :
      Reachable db →
      Reachable (postState (purchasePoints uid amount usd txid db) db)
  | step_paymentWebhook (txid : String) (st : PaymentStatus) {db : DB} :
      Reachable db →
      Reachable (postState (paymentWebhook txid st db) db)
  | step_createExchange (uid bookId : Nat) (message : Option String) {db : DB} :
      Reachable db →
      Reachable (postState (createExchange uid bookId message db) db)
  | step_approveExchange (exchangeId uid : Nat) (approve : Bool) {db : DB} :
      Reachable db →
      Reachable (postState (approveExchange exchangeId uid approve db) db)
  | step_cancelExchange (exchangeId uid : Nat) {db : DB} :
      Reachable db →
      Reachable (postState (cancelExchange exchangeId uid db) db)
  | step_createDispute (uid exchangeId : Nat) (reason description : String)
      {db : DB} :
      Reachable db →
      Reachable (postState (createDispute uid exchangeId reason description db) db)
  | step_recalculate (bookId uid : Nat) (aiBasePoints : Option Int) {db : DB} :
      Reachable db →
      Reachable (postState (recalculateBookValue bookId uid aiBasePoints db) db)

/-- Derived balance of a user: the sum of the amounts of that user's ledger
entries (`PointTransaction` rows). -/
def userSum (uid : Nat) (ts : List PointTransactionR) : Int :=
  ((ts.filter (fun t => t.userId == uid)).map (fun t => t.amount)).sum

/-- Open disputes recorded for one exchange. -/
def openDisputesFor (eid : Nat) (ds : List ExchangeDisputeR) : Nat :=
  (ds.filter (fun d => d.exchangeId == eid && d.status == "open")).length

/-- The inductive invariant of the engine: the cached balances agree with
the ledger and are non-negative, together with the bookkeeping facts the
induction needs (unique user ids, id freshness, positive stored values and
snapshots, and at most one open dispute per exchange). -/
structure Inv (db : DB) : Prop where
  usersNodup : (db.users.map (fun u => u.id)).Nodup
  usersLt : ∀ u ∈ db.users, u.id < db.nextUserId
  transLt : ∀ t ∈ db.transactions, t.userId < db.nextUserId
  balances : ∀ u ∈ db.users, u.pointsBalance = userSum u.id db.transactions
  nonneg : ∀ u ∈ db.users, 0 ≤ u.pointsBalance
  booksPos : ∀ b ∈ db.books, 1 ≤ b.pointValue
  booksLt : ∀ b ∈ db.books, b.id < db.nextBookId
  exPos : ∀ e ∈ db.exchanges, 1 ≤ e.pointsCost
  payPos : ∀ p ∈ db.payments, 1 ≤ p.pointsAmount
  disputesUniq : ∀ eid : Nat, openDisputesFor eid db.disputes ≤ 1

/-! ### Scenario states used by the claim theorems -/

/-- Scenario state for the valuation claim: one owner, one available book
with condition "excellent", no wishlist entries and no exchange requests, so
exactly one available copy of its title+author exists. -/
def c4_db : DB :=
  { initDB with
    users := [⟨1, "owner", "owner@example.com", 0⟩],
    books := [⟨1, 1, "dune", "herbert", "excellent", 15, true⟩],
    nextUserId := 2, nextBookId := 2 }

/-- Valuation formula in the spec's words (§4.1): condition multiplier and
base-points tables, `demandScore = min(1, (0.5w + 2.0a + 0.2c)/20)`,
`rarityScore = 1/(1 + (copiesAvailable - 1))`,
`final = basePoints * conditionMultiplier * (1 + 0.5*demand + 0.5*rarity)`,
returning `max(1, round(final))`, with `round` read as Python's
round-half-to-even. -/
def spec_valuate (condition : String)
    (wishlistCount activeRequestCount completedCount copiesAvailable : Nat) :
    Int :=
  let conditionMultiplier : ℚ :=
    if condition = "excellent" then 1
    else if condition = "good" then 4/5
    else if condition = "fair" then 3/5
    else if condition = "poor" then 2/5
    else 3/5
  let demandScore : ℚ :=
    min 1 (((wishlistCount : ℚ) * (1/2) + (activeRequestCount : ℚ) * 2 +
      (completedCount : ℚ) * (1/5)) / 20)
  let rarityScore : ℚ := 1 / (1 + ((copiesAvailable : ℚ) - 1))
  let basePoints : Int :=
    if condition = "excellent" then 15
    else if condition = "good" then 12
    else if condition = "fair" then 8
    else if condition = "poor" then 5
    else 10
  let final : ℚ :=
    (basePoints : ℚ) * conditionMultiplier *
      (1 + (1/2) * demandScore + (1/2) * rarityScore)
  max 1 (pyRound final)

/-- Scenario state for the cycle-guard claim: four users A=1, B=2, C=3, D=4;
C has points; A owns available book 100 and D owns available book 101; the
active PENDING requests induce exactly the obligation edges A→B (user 1
requested user 2's book) and B→C. The request ids, the requested books'
ids, the cost snapshots and the messages of the two active requests are
irrelevant to the guard and are parameters. -/
def c5_db (i1 i2 b1 b2 : Nat) (c1 c2 : Int) (m1 m2 : Option String) : DB :=
  { initDB with
    users := [⟨1, "a", "a@x", 0⟩, ⟨2, "b", "b@x", 0⟩, ⟨3, "c", "c@x", 50⟩,
      ⟨4, "d", "d@x", 0⟩],
    books := [⟨100, 1, "ba", "aa", "good", 5, true⟩,
      ⟨101, 4, "bd", "ad", "good", 5, true⟩],
    exchanges := [⟨i1, b1, 1, 2, .pending, c1, m1⟩,
      ⟨i2, b2, 2, 3, .pending, c2, m2⟩],
    nextUserId := 5, nextBookId := 102, nextExchangeId := 3 }

/-- Scenario state for C7: requester with balance 10 against an available
book costing 12. -/
def c7_db : DB :=
  { initDB with
    users := [⟨1, "owner", "o@x", 0⟩, ⟨2, "req", "r@x", 10⟩],
    books := [⟨1, 1, "bt", "ba", "good", 12, true⟩],
    nextUserId := 3, nextBookId := 2 }

/-- Scenario state for C10: exchange 1 on book 1 names requester 2, whose
user row does not exist; the owner (user 1) exists. -/
def c10_db : DB :=
  { initDB with
    users := [⟨1, "owner", "o@x", 7⟩],
    books := [⟨1, 1, "bt", "ba", "good", 12, true⟩],
    exchanges := [⟨1, 1, 2, 1, .pending, 12, none⟩],
    nextUserId := 2, nextBookId := 2, nextExchangeId := 2 }

/-- Scenario state for C2: requester (user 2) has cached balance 10 while
the PENDING exchange snapshot costs 12; user 1 owns the book. -/
def c2_db : DB :=
  { initDB with
    users := [⟨1, "owner", "o@x", 0⟩, ⟨2, "req", "r@x", 10⟩],
    books := [⟨1, 1, "bt", "ba", "good", 12, false⟩],
    exchanges := [⟨1, 1, 2, 1, .pending, 12, none⟩],
    nextUserId := 3, nextBookId := 2, nextExchangeId := 2 }

/-! ### A concrete reachable trace

Two users, one book, one points purchase; the branches below reach a
COMPLETED exchange (`dbT6`) and a state with a CANCELLED first request and
a fresh PENDING one (`dbT8`, `dbT9`). -/

/-- After `signup("alice")`. -/
def dbT1 : DB :=
  { initDB with users := [⟨1, "alice", "a@x", 0⟩], nextUserId := 2 }

/-- After `signup("bob")`. -/
def dbT2 : DB :=
  { initDB with
    users := [⟨1, "alice", "a@x", 0⟩, ⟨2, "bob", "b@x", 0⟩],
    nextUserId := 3 }

/-- Intermediate state inside `create_book`: alice's book committed with the
condition-default base value 15 and the 10 listing points awarded, before
`update_book_value` recomputes the stored value. -/
def dbT3pre : DB :=
  { initDB with
    users := [⟨1, "alice", "a@x", 10⟩, ⟨2, "bob", "b@x", 0⟩],
    books := [⟨1, 1, "dune", "herbert", "excellent", 15, true⟩],
    transactions := [⟨1, 10, .earned, none⟩],
    nextUserId := 3, nextBookId := 2 }

/-- After alice lists "dune" (condition "excellent"): the recomputed value
is `round(15 * 1.0 * 1.5) = 22`. -/
def dbT3 : DB :=
  { initDB with
    users := [⟨1, "alice", "a@x", 10⟩, ⟨2, "bob", "b@x", 0⟩],
    books := [⟨1, 1, "dune", "herbert", "excellent", 22, true⟩],
    transactions := [⟨1, 10, .earned, none⟩],
    nextUserId := 3, nextBookId := 2 }

/-- After bob buys 100 points for 5 USD. -/
def dbT4 : DB :=
  { initDB with
    users := [⟨1, "alice", "a@x", 10⟩, ⟨2, "bob", "b@x", 100⟩],
    books := [⟨1, 1, "dune", "herbert", "excellent", 22, true⟩],
    transactions := [⟨1, 10, .earned, none⟩, ⟨2, 100, .purchased, none⟩],
    payments := [⟨1, 2, 100, .completed, "TXN1"⟩],
    nextUserId := 3, nextBookId := 2, nextPaymentId := 2 }

/-- After bob requests alice's book: the book is flipped unavailable and a
PENDING request snapshots the cost 22. -/
def dbT5 : DB :=
  { initDB with
    users := [⟨1, "alice", "a@x", 10⟩, ⟨2, "bob", "b@x", 100⟩],
    books := [⟨1, 1, "dune", "herbert", "excellent", 22, false⟩],
    exchanges := [⟨1, 1, 2, 1, .pending, 22, none⟩],
    transactions := [⟨1, 10, .earned, none⟩, ⟨2, 100, .purchased, none⟩],
    payments := [⟨1, 2, 100, .completed, "TXN1"⟩],
    nextUserId := 3, nextBookId := 2, nextExchangeId := 2,
    nextPaymentId := 2 }

/-- After alice approves: ownership transferred, debit and credit posted,
status COMPLETED. -/
def dbT6 : DB :=
  { initDB with
    users := [⟨1, "alice", "a@x", 32⟩, ⟨2, "bob", "b@x", 78⟩],
    books := [⟨1, 2, "dune", "herbert", "excellent", 22, true⟩],
    exchanges := [⟨1, 1, 2, 1, .completed, 22, none⟩],
    transactions := [⟨1, 10, .earned, none⟩, ⟨2, 100, .purchased, none⟩,
      ⟨2, -22, .redeemed, some 1⟩, ⟨1, 22, .earned, some 1⟩],
    payments := [⟨1, 2, 100, .completed, "TXN1"⟩],
    nextUserId := 3, nextBookId := 2, nextExchangeId := 2,
    nextPaymentId := 2 }

/-- Branch from `dbT5`: bob cancels his PENDING request instead. -/
def dbT7 : DB :=
  { initDB with
    users := [⟨1, "alice", "a@x", 10⟩, ⟨2, "bob", "b@x", 100⟩],
    books := [⟨1, 1, "dune", "herbert", "excellent", 22, true⟩],
    exchanges := [⟨1, 1, 2, 1, .cancelled, 22, none⟩],
    transactions := [⟨1, 10, .earned, none⟩, ⟨2, 100, .purchased, none⟩],
    payments := [⟨1, 2, 100, .completed, "TXN1"⟩],
    nextUserId := 3, nextBookId := 2, nextExchangeId := 2,
    nextPaymentId := 2 }

/-- Bob requests the book again: request 2 is PENDING, the book is
unavailable, and the CANCELLED request 1 is still on file. -/
def dbT8 : DB :=
  { initDB with
    users := [⟨1, "alice", "a@x", 10⟩, ⟨2, "bob", "b@x", 100⟩],
    books := [⟨1, 1, "dune", "herbert", "excellent", 22, false⟩],
    exchanges := [⟨1, 1, 2, 1, .cancelled, 22, none⟩,
      ⟨2, 1, 2, 1, .pending, 22, none⟩],
    transactions := [⟨1, 10, .earned, none⟩, ⟨2, 100, .purchased, none⟩],
    payments := [⟨1, 2, 100, .completed, "TXN1"⟩],
    nextUserId := 3, nextBookId := 2, nextExchangeId := 3,
    nextPaymentId := 2 }

/-- Alice "rejects" the CANCELLED request 1: the reject branch flips the
book available again although request 2 is still PENDING. -/
def dbT9 : DB :=
  { initDB with
    users := [⟨1, "alice", "a@x", 10⟩, ⟨2, "bob", "b@x", 100⟩],
    books := [⟨1, 1, "dune", "herbert", "excellent", 22, true⟩],
    exchanges := [⟨1, 1, 2, 1, .rejected, 22, none⟩,
      ⟨2, 1, 2, 1, .pending, 22, none⟩],
    transactions := [⟨1, 10, .earned, none⟩, ⟨2, 100, .purchased, none⟩],
    payments := [⟨1, 2, 100, .completed, "TXN1"⟩],
    nextUserId := 3, nextBookId := 2, nextExchangeId := 3,
    nextPaymentId := 2 }

/-! ### Toolbox lemmas about `updateFirst`, `userSum` and `openDisputesFor` -/

theorem mem_updateFirst {α : Type} {p : α → Bool} {f : α → α} {l : List α}
    {a : α} (h : a ∈ updateFirst p f l) :
    a ∈ l ∨ ∃ b ∈ l, p b = true ∧ a = f b := by
  induction l with
  | nil => simp [updateFirst] at h
  | cons x xs ih =>
    by_cases hp : p x
    · simp only [updateFirst, if_pos hp, List.mem_cons] at h
      rcases h with h | h
      · exact .inr ⟨x, List.mem_cons_self x xs, hp, h⟩
      · exact .inl (List.mem_cons_of_mem _ h)
    · simp only [updateFirst, if_neg hp, List.mem_cons] at h
      rcases h with h | h
      · exact .inl (h ▸ List.mem_cons_self x xs)
      · rcases ih h with h' | ⟨b, hb, hpb, rfl⟩
        · exact .inl (List.mem_cons_of_mem _ h')
        · exact .inr ⟨b, List.mem_cons_of_mem _ hb, hpb, rfl⟩

theorem map_key_updateFirst {α β : Type} {key : α → β} {p : α → Bool}
    {f : α → α} (hf : ∀ a, key (f a) = key a) (l : List α) :
    (updateFirst p f l).map key = l.map key := by
  induction l with
  | nil => rfl
  | cons x xs ih =>
    by_cases hp : p x <;> simp [updateFirst, hp, hf, ih]

theorem nodup_ids_updateFirst {p : UserR → Bool} {f : UserR → UserR}
    (hf : ∀ a : UserR, (f a).id = a.id) {us : List UserR}
    (h : (us.map (fun u => u.id)).Nodup) :
    ((updateFirst p f us).map (fun u => u.id)).Nodup := by
  rw [map_key_updateFirst hf]
  exact h

theorem eq_of_find?_nodup_ids {us : List UserR} {uid : Nat} {u0 : UserR}
    (hnodup : (us.map (fun u => u.id)).Nodup)
    (hfind : us.find? (fun u => u.id == uid) = some u0) :
    ∀ u ∈ us, u.id = uid → u = u0 := by
  induction us with
  | nil => simp at hfind
  | cons x xs ih =>
    intro u hu huid
    by_cases hx : (x.id == uid) = true
    · rw [List.find?_cons_of_pos (p := fun u => u.id == uid) xs hx] at hfind
      have hx0 : x = u0 := by injection hfind
      rcases List.mem_cons.mp hu with rfl | hmem
      · exact hx0
      · exfalso
        have hxid : x.id = uid := by simpa using hx
        have : x.id ∈ xs.map (fun u => u.id) :=
          List.mem_map.mpr ⟨u, hmem, by simp [huid, hxid]⟩
        exact (List.nodup_cons.mp hnodup).1 this
    · rw [List.find?_cons_of_neg (p := fun u => u.id == uid) xs hx] at hfind
      rcases List.mem_cons.mp hu with rfl | hmem
      · exact absurd (by simpa using huid) (by simpa using hx)
      · exact ih (List.nodup_cons.mp hnodup).2 hfind u hmem huid

theorem userSum_append (uid : Nat) (ts : List PointTransactionR)
    (t : PointTransactionR) :
    userSum uid (ts ++ [t]) =
      userSum uid ts + (if t.userId = uid then t.amount else 0) := by
  by_cases h : t.userId = uid <;>
    simp [userSum, List.filter_append, h]

theorem balances_updateFirst {us : List UserR} {ts : List PointTransactionR}
    {uid : Nat} {amt : Int} {tt : PointTransactionType} {rel : Option Nat}
    {f : UserR → UserR}
    (hnodup : (us.map (fun u => u.id)).Nodup)
    (hf_id : ∀ u, (f u).id = u.id)
    (hf_bal : ∀ u, (f u).pointsBalance = u.pointsBalance + amt)
    (hbal : ∀ u ∈ us, u.pointsBalance = userSum u.id ts) :
    ∀ u ∈ updateFirst (fun u => u.id == uid) f us,
      u.pointsBalance = userSum u.id (ts ++ [⟨uid, amt, tt, rel⟩]) := by
  induction us with
  | nil => simp [updateFirst]
  | cons x xs ih =>
    rcases List.nodup_cons.mp hnodup with ⟨hxid, hnd⟩
    by_cases hp : (x.id == uid) = true
    · have hxu : x.id = uid := by simpa using hp
      intro u hu
      simp only [updateFirst, if_pos hp, List.mem_cons] at hu
      rcases hu with rfl | hu
      · rw [hf_id, hf_bal, hbal x (List.mem_cons_self x xs), hxu,
          userSum_append]
        simp
      · have huid : u.id ≠ uid := by
          intro heq
          exact hxid (List.mem_map.mpr ⟨u, hu, by simp [heq, hxu]⟩)
        rw [hbal u (List.mem_cons_of_mem _ hu), userSum_append, if_neg ?_]
        · ring
        · simpa using fun h => huid h.symm
    · intro u hu
      simp only [updateFirst, if_neg hp, List.mem_cons] at hu
      rcases hu with rfl | hu
      · have huid : u.id ≠ uid := by simpa using hp
        rw [hbal u (List.mem_cons_self u xs), userSum_append, if_neg ?_]
        · ring
        · simpa using fun h => huid h.symm
      · exact ih hnd (fun v hv => hbal v (List.mem_cons_of_mem _ hv)) u hu

theorem balances_untouched {us : List UserR} {ts : List PointTransactionR}
    {uid : Nat} {amt : Int} {tt : PointTransactionType} {rel : Option Nat}
    (hnone : us.find? (fun u => u.id == uid) = none)
    (hbal : ∀ u ∈ us, u.pointsBalance = userSum u.id ts) :
    ∀ u ∈ us, u.pointsBalance = userSum u.id (ts ++ [⟨uid, amt, tt, rel⟩]) := by
  intro u hu
  have : ¬ (u.id == uid) = true := by
    intro h
    have := List.find?_eq_none.mp hnone u hu
    exact this h
  have huid : u.id ≠ uid := by simpa using this
  rw [hbal u hu, userSum_append, if_neg ?_]
  · ring
  · simpa using fun h => huid h.symm

theorem nonneg_updateFirst {us : List UserR} {p : UserR → Bool}
    {f : UserR → UserR}
    (hpos : ∀ u ∈ us, 0 ≤ u.pointsBalance)
    (hf : ∀ u ∈ us, p u = true → 0 ≤ (f u).pointsBalance) :
    ∀ u ∈ updateFirst p f us, 0 ≤ u.pointsBalance := by
  intro u hu
  rcases mem_updateFirst hu with h | ⟨b, hb, hpb, rfl⟩
  · exact hpos u h
  · exact hf b hb hpb

theorem openDisputesFor_append (eid : Nat) (ds : List ExchangeDisputeR)
    (d : ExchangeDisputeR) :
    openDisputesFor eid (ds ++ [d]) =
      openDisputesFor eid ds +
        (if d.exchangeId = eid ∧ d.status = "open" then 1 else 0) := by
  by_cases h : d.exchangeId = eid ∧ d.status = "open"
  · simp [openDisputesFor, List.filter_append, h.1, h.2]
  · rw [if_neg h]
    rcases not_and_or.mp h with h1 | h1 <;>
      simp [openDisputesFor, List.filter_append, h1]

theorem openDisputesFor_eq_zero {eid : Nat} {ds : List ExchangeDisputeR}
    (h : ds.find? (fun d => d.exchangeId == eid && d.status == "open") = none) :
    openDisputesFor eid ds = 0 := by
  rw [openDisputesFor, List.length_eq_zero, List.filter_eq_nil_iff]
  intro d hd
  exact fun hcontra => (List.find?_eq_none.mp h d hd) hcontra

theorem userSum_eq_zero {uid : Nat} {ts : List PointTransactionR}
    (h : ∀ t ∈ ts, t.userId ≠ uid) : userSum uid ts = 0 := by
  rw [userSum]
  have : ts.filter (fun t => t.userId == uid) = [] := by
    rw [List.filter_eq_nil_iff]
    intro t ht
    simpa using h t ht
  rw [this]
  rfl

theorem updateFirst_append_single {α : Type} {p : α → Bool} {f : α → α}
    {l : List α} {a : α} (h : ∀ b ∈ l, p b = false) (hp : p a = true) :
    updateFirst p f (l ++ [a]) = l ++ [f a] := by
  induction l with
  | nil => simp [updateFirst, hp]
  | cons x xs ih =>
    have hx := h x (List.mem_cons_self x xs)
    rw [List.cons_append, updateFirst, if_neg (by simp [hx]), List.cons_append,
      ih (fun b hb => h b (List.mem_cons_of_mem _ hb))]

theorem find?_updateFirst {α : Type} {p : α → Bool} {f : α → α}
    (hp : ∀ a, p (f a) = p a) (l : List α) :
    List.find? p (updateFirst p f l) = (List.find? p l).map f := by
  induction l with
  | nil => rfl
  | cons x xs ih =>
    by_cases hx : p x = true
    · rw [updateFirst, if_pos hx, List.find?_cons_of_pos _ (by rw [hp]; exact hx),
        List.find?_cons_of_pos _ hx]
      rfl
    · rw [updateFirst, if_neg (by simpa using hx),
        List.find?_cons_of_neg _ (by simpa using hx),
        List.find?_cons_of_neg _ (by simpa using hx)]
      exact ih

theorem one_le_calculate_book_value (bookId : Nat) (db : DB)
    (basePointsArg aiBasePoints : Option Int) :
    1 ≤ calculate_book_value bookId db basePointsArg aiBasePoints := by
  rw [calculate_book_value]
  split
  · norm_num
  · exact le_max_left 1 _

theorem one_le_of_pointPricing_some {pointsAmount : Int} {q : ℚ}
    (h : pointPricing pointsAmount = some q) : 1 ≤ pointsAmount := by
  rw [pointPricing] at h
  split at h
  · omega
  · split at h
    · omega
    · split at h
      · omega
      · split at h
        · omega
        · exact absurd h (by simp)

/-! ### Preservation of the invariant by each operation -/

theorem inv_update_book_value (bookId : Nat) (aiBasePoints : Option Int)
    {db : DB} (h : Inv db) : Inv ((update_book_value bookId aiBasePoints db).2) := by
  rw [update_book_value]
  split
  · exact h
  · refine { h with booksPos := ?_, booksLt := ?_ }
    · intro b hb
      rcases mem_updateFirst hb with hb' | ⟨c, _, _, rfl⟩
      · exact h.booksPos b hb'
      · exact one_le_calculate_book_value bookId db none aiBasePoints
    · intro b hb
      rcases mem_updateFirst hb with hb' | ⟨c, hc, _, rfl⟩
      · exact h.booksLt b hb'
      · exact h.booksLt c hc

theorem inv_register (username email password : String) {db : DB}
    (h : Inv db) : Inv (postState (register username email password db) db) := by
  rw [register]
  split
  · exact h
  · split
    · exact h
    · split
      · exact h
      · simp only [postState]
        constructor
        · rw [List.map_append]
          refine List.Nodup.append h.usersNodup (by simp) ?_
          intro a ha hb
          simp only [List.map_cons, List.map_nil, List.mem_singleton] at hb
          rcases List.mem_map.mp ha with ⟨u, hu, rfl⟩
          exact absurd hb (Nat.ne_of_lt (h.usersLt u hu))
        · intro u hu
          rcases List.mem_append.mp hu with hu' | hu'
          · exact Nat.lt_succ_of_lt (h.usersLt u hu')
          · simp only [List.mem_singleton] at hu'
            subst hu'
            exact Nat.lt_succ_self _
        · intro t ht
          exact Nat.lt_succ_of_lt (h.transLt t ht)
        · intro u hu
          rcases List.mem_append.mp hu with hu' | hu'
          · exact h.balances u hu'
          · simp only [List.mem_singleton] at hu'
            subst hu'
            rw [userSum_eq_zero]
            intro t ht
            exact Nat.ne_of_lt (h.transLt t ht)
        · intro u hu
          rcases List.mem_append.mp hu with hu' | hu'
          · exact h.nonneg u hu'
          · simp only [List.mem_singleton] at hu'
            subst hu'
            exact le_refl 0
        · exact h.booksPos
        · exact h.booksLt
        · exact h.exPos
        · exact h.payPos
        · exact h.disputesUniq

theorem inv_recalculateBookValue (bookId currentUserId : Nat)
    (aiBasePoints : Option Int) {db : DB} (h : Inv db) :
    Inv (postState (recalculateBookValue bookId currentUserId aiBasePoints db) db) := by
  rw [recalculateBookValue]
  split
  · exact h
  · split
    · exact h
    · split
      · exact h
      · exact inv_update_book_value bookId aiBasePoints h

theorem inv_purchasePoints (currentUserId : Nat) (amount : Int) (usd : ℚ)
    (txid : String) {db : DB} (h : Inv db) :
    Inv (postState (purchasePoints currentUserId amount usd txid db) db) := by
  rw [purchasePoints]
  split
  · exact h
  · rename_i user hu
    split
    · exact h
    · rename_i q hpr
      split
      · exact h
      · simp only [postState]
        have hamt : 1 ≤ amount := one_le_of_pointPricing_some hpr
        have huid : user.id = currentUserId := by
          simpa using List.find?_some hu
        have humem : user ∈ db.users := List.mem_of_find?_eq_some hu
        refine { h with
          usersNodup := ?_
          usersLt := ?_
          transLt := ?_
          balances := ?_
          nonneg := ?_
          payPos := ?_ }
        · refine nodup_ids_updateFirst (fun u => ?_) h.usersNodup
          rfl
        · intro u hu'
          rcases mem_updateFirst hu' with h' | ⟨b, hb, _, rfl⟩
          · exact h.usersLt u h'
          · exact h.usersLt b hb
        · intro t ht
          rcases List.mem_append.mp ht with h' | h'
          · exact h.transLt t h'
          · simp only [List.mem_singleton] at h'
            subst h'
            rw [← huid]
            exact h.usersLt user humem
        · exact balances_updateFirst h.usersNodup (fun u => rfl) (fun u => rfl)
            h.balances
        · refine nonneg_updateFirst h.nonneg ?_
          intro u hu' _
          have := h.nonneg u hu'
          simp only []
          omega
        · intro p hp
          rcases List.mem_append.mp hp with h' | h'
          · exact h.payPos p h'
          · simp only [List.mem_singleton] at h'
            subst h'
            exact hamt

theorem inv_paymentWebhook (txid : String) (st : PaymentStatus) {db : DB}
    (h : Inv db) : Inv (postState (paymentWebhook txid st db) db) := by
  simp only [paymentWebhook]
  split
  · exact h
  · rename_i transaction htr
    have htrmem : transaction ∈ db.payments := List.mem_of_find?_eq_some htr
    have hpay1 : ∀ p ∈ updateFirst (fun p => p.transactionId == txid)
        (fun p => { p with status := st }) db.payments, 1 ≤ p.pointsAmount := by
      intro p hp
      rcases mem_updateFirst hp with h' | ⟨b, hb, _, rfl⟩
      · exact h.payPos p h'
      · exact h.payPos b hb
    split
    · split
      · rename_i user huser
        simp only [postState]
        have huid : user.id = transaction.userId := by
          simpa using List.find?_some huser
        have humem : user ∈ db.users := List.mem_of_find?_eq_some huser
        have hamt : 1 ≤ transaction.pointsAmount := h.payPos transaction htrmem
        refine { h with
          usersNodup := ?_
          usersLt := ?_
          transLt := ?_
          balances := ?_
          nonneg := ?_
          payPos := hpay1 }
        · refine nodup_ids_updateFirst (fun u => ?_) h.usersNodup
          rfl
        · intro u hu'
          rcases mem_updateFirst hu' with h' | ⟨b, hb, _, rfl⟩
          · exact h.usersLt u h'
          · exact h.usersLt b hb
        · intro t ht
          rcases List.mem_append.mp ht with h' | h'
          · exact h.transLt t h'
          · simp only [List.mem_singleton] at h'
            subst h'
            rw [← huid]
            exact h.usersLt user humem
        · exact balances_updateFirst h.usersNodup (fun u => rfl) (fun u => rfl)
            h.balances
        · refine nonneg_updateFirst h.nonneg ?_
          intro u hu' _
          have := h.nonneg u hu'
          simp only []
          omega
      · simp only [postState]
        exact { h with payPos := hpay1 }
    · simp only [postState]
      exact { h with payPos := hpay1 }

theorem inv_createExchange (currentUserId bookId : Nat)
    (message : Option String) {db : DB} (h : Inv db) :
    Inv (postState (createExchange currentUserId bookId message db) db) := by
  rw [createExchange]
  split
  · exact h
  · split
    · exact h
    · rename_i currentUser hcu book hbook
      have hbmem : book ∈ db.books := List.mem_of_find?_eq_some hbook
      split
      · exact h
      · split
        · exact h
        · split
          · exact h
          · split
            · exact h
            · simp only [postState]
              refine { h with booksPos := ?_, booksLt := ?_, exPos := ?_ }
              · intro b hb
                rcases mem_updateFirst hb with h' | ⟨c, hc, _, rfl⟩
                · exact h.booksPos b h'
                · exact h.booksPos c hc
              · intro b hb
                rcases mem_updateFirst hb with h' | ⟨c, hc, _, rfl⟩
                · exact h.booksLt b h'
                · exact h.booksLt c hc
              · intro e he
                rcases List.mem_append.mp he with h' | h'
                · exact h.exPos e h'
                · simp only [List.mem_singleton] at h'
                  subst h'
                  exact h.booksPos book hbmem

theorem inv_cancelExchange (exchangeId currentUserId : Nat) {db : DB}
    (h : Inv db) : Inv (postState (cancelExchange exchangeId currentUserId db) db) := by
  simp only [cancelExchange]
  split
  · exact h
  · split
    · exact h
    · split
      · exact h
      · split
        · exact h
        · split
          · simp only [postState]
            refine { h with booksPos := ?_, booksLt := ?_, exPos := ?_ }
            · intro b hb
              rcases mem_updateFirst hb with h' | ⟨c, hc, _, rfl⟩
              · exact h.booksPos b h'
              · exact h.booksPos c hc
            · intro b hb
              rcases mem_updateFirst hb with h' | ⟨c, hc, _, rfl⟩
              · exact h.booksLt b h'
              · exact h.booksLt c hc
            · intro e he
              rcases mem_updateFirst he with h' | ⟨c, hc, _, rfl⟩
              · exact h.exPos e h'
              · exact h.exPos c hc
          · simp only [postState]
            refine { h with exPos := ?_ }
            intro e he
            rcases mem_updateFirst he with h' | ⟨c, hc, _, rfl⟩
            · exact h.exPos e h'
            · exact h.exPos c hc

theorem inv_createDispute (currentUserId exchangeId : Nat)
    (reason description : String) {db : DB} (h : Inv db) :
    Inv (postState (createDispute currentUserId exchangeId reason description db) db) := by
  rw [createDispute]
  split
  · exact h
  · split
    · exact h
    · split
      · exact h
      · split
        · exact h
        · split
          · exact h
          · rename_i hnotopen
            simp only [postState]
            have hnone : db.disputes.find?
                (fun d => d.exchangeId == exchangeId && d.status == "open") = none := by
              rw [← Option.not_isSome_iff_eq_none]
              simpa using hnotopen
            refine { h with exPos := ?_, disputesUniq := ?_ }
            · intro e he
              rcases mem_updateFirst he with h' | ⟨c, hc, _, rfl⟩
              · exact h.exPos e h'
              · exact h.exPos c hc
            · intro eid
              rw [openDisputesFor_append]
              by_cases heq : eid = exchangeId
              · subst heq
                rw [openDisputesFor_eq_zero hnone]
                simp
              · rw [if_neg ?_]
                · simpa using h.disputesUniq eid
                · simp only [not_and]
                  intro hcontra
                  exact absurd hcontra (by simpa using Ne.symm heq)

theorem find?_append_singleton_none {α : Type} {p : α → Bool} {l : List α}
    {a : α} (h : List.find? p (l ++ [a]) = none) : p a = false := by
  have := List.find?_eq_none.mp h a
    (List.mem_append.mpr (Or.inr (List.mem_singleton.mpr rfl)))
  simpa using this

theorem updateFirst_append_fresh {l : List BookR} {nb : BookR} {k : Nat}
    (f : BookR → BookR) (hk : nb.id = k) (hfresh : ∀ b ∈ l, b.id ≠ k) :
    updateFirst (fun b => b.id == k) f (l ++ [nb]) = l ++ [f nb] :=
  updateFirst_append_single (fun b hb => by simpa using hfresh b hb)
    (by simp [hk])

/-- Success branch of `create_book`, stated over a symbolic new-book row:
insert the book, award the 10 listing points with the matching EARNED ledger
entry, then let `update_book_value` overwrite the stored value with the
recomputed one (which is at least 1). -/
theorem inv_createBook_aux {db : DB} (h : Inv db) (uid : Nat) (nb : BookR)
    (hnbid : nb.id = db.nextBookId) (hu : ∃ u ∈ db.users, u.id = uid)
    (ai : Option Int) :
    Inv (update_book_value db.nextBookId ai
      { db with
          books := db.books ++ [nb]
          nextBookId := db.nextBookId + 1
          users := updateFirst (fun u => u.id == uid)
            (fun u => { u with pointsBalance := u.pointsBalance + 10 })
            db.users
          transactions := db.transactions ++
            [⟨uid, 10, .earned, none⟩] }).2 := by
  obtain ⟨user, humem, huid⟩ := hu
  have hfresh : ∀ b ∈ db.books, b.id ≠ db.nextBookId := by
    intro b hb
    exact Nat.ne_of_lt (h.booksLt b hb)
  rw [update_book_value]
  split
  · rename_i hnone
    exfalso
    have hpa := find?_append_singleton_none hnone
    simp [hnbid] at hpa
  · rename_i bk hbk
    simp only [updateFirst_append_fresh _ hnbid hfresh]
    refine { h with
      usersNodup := ?_
      usersLt := ?_
      transLt := ?_
      balances := ?_
      nonneg := ?_
      booksPos := ?_
      booksLt := ?_ }
    · refine nodup_ids_updateFirst (fun u => ?_) h.usersNodup
      rfl
    · intro u hu'
      rcases mem_updateFirst hu' with h' | ⟨b, hb, _, rfl⟩
      · exact h.usersLt u h'
      · exact h.usersLt b hb
    · intro t ht
      rcases List.mem_append.mp ht with h' | h'
      · exact h.transLt t h'
      · simp only [List.mem_singleton] at h'
        subst h'
        rw [← huid]
        exact h.usersLt user humem
    · exact balances_updateFirst h.usersNodup (fun u => rfl) (fun u => rfl)
        h.balances
    · refine nonneg_updateFirst h.nonneg ?_
      intro u hu' _
      have := h.nonneg u hu'
      simp only []
      omega
    · intro b hb
      rcases List.mem_append.mp hb with h' | h'
      · exact h.booksPos b h'
      · simp only [List.mem_singleton] at h'
        subst h'
        exact one_le_calculate_book_value db.nextBookId _ none ai
    · intro b hb
      rcases List.mem_append.mp hb with h' | h'
      · exact Nat.lt_succ_of_lt (h.booksLt b h')
      · simp only [List.mem_singleton] at h'
        subst h'
        have hlt : nb.id < db.nextBookId + 1 := by
          rw [hnbid]
          exact Nat.lt_succ_self _
        exact hlt

theorem inv_createBook (currentUserId : Nat) (title author condition : String)
    (pointValueArg aiBasePoints : Option Int) {db : DB} (h : Inv db) :
    Inv (postState
      (createBook currentUserId title author condition pointValueArg
        aiBasePoints db) db) := by
  simp only [createBook]
  split
  · exact h
  · rename_i user hu
    have huid : user.id = currentUserId := by
      simpa using List.find?_some hu
    have humem : user ∈ db.users := List.mem_of_find?_eq_some hu
    split
    · exact h
    · simp only [postState]
      refine inv_createBook_aux h currentUserId _ ?_ ⟨user, humem, huid⟩
        aiBasePoints
      rfl

theorem inv_completeApproval {db : DB} (exchange : ExchangeRequestR)
    (oldOwnerId : Nat) (h : Inv db) (hcost : 1 ≤ exchange.pointsCost) :
    Inv (completeApproval exchange oldOwnerId db) := by
  rw [completeApproval]
  split
  · rename_i oldOwner hoo
    have homem : oldOwner ∈ db.users := List.mem_of_find?_eq_some hoo
    have hoid : oldOwner.id = oldOwnerId := by
      simpa using List.find?_some hoo
    refine { h with
      usersNodup := ?_
      usersLt := ?_
      transLt := ?_
      balances := ?_
      nonneg := ?_
      exPos := ?_ }
    · refine nodup_ids_updateFirst (fun u => ?_) h.usersNodup
      rfl
    · intro u hu'
      rcases mem_updateFirst hu' with h' | ⟨b, hb, _, rfl⟩
      · exact h.usersLt u h'
      · exact h.usersLt b hb
    · intro t ht
      rcases List.mem_append.mp ht with h' | h'
      · exact h.transLt t h'
      · simp only [List.mem_singleton] at h'
        subst h'
        rw [← hoid]
        exact h.usersLt oldOwner homem
    · exact balances_updateFirst h.usersNodup (fun u => rfl) (fun u => rfl)
        h.balances
    · refine nonneg_updateFirst h.nonneg ?_
      intro u hu' _
      have := h.nonneg u hu'
      simp only []
      omega
    · intro e he
      rcases mem_updateFirst he with h' | ⟨c, hc, _, rfl⟩
      · exact h.exPos e h'
      · exact h.exPos c hc
  · refine { h with exPos := ?_ }
    intro e he
    rcases mem_updateFirst he with h' | ⟨c, hc, _, rfl⟩
    · exact h.exPos e h'
    · exact h.exPos c hc

theorem inv_approveExchange (exchangeId currentUserId : Nat) (approve : Bool)
    {db : DB} (h : Inv db) :
    Inv (postState (approveExchange exchangeId currentUserId approve db) db) := by
  simp only [approveExchange]
  split
  · exact h
  · split
    · exact h
    · rename_i exchange hex
      have hexmem : exchange ∈ db.exchanges := List.mem_of_find?_eq_some hex
      have hcost : 1 ≤ exchange.pointsCost := h.exPos exchange hexmem
      split
      · exact h
      · split
        · split
          · exact h
          · rename_i book hbook
            have h1 : Inv { db with
                books := updateFirst (fun b => b.id == exchange.bookId)
                  (fun b =>
                    { b with
                        ownerId := exchange.requesterId
                        isAvailable := true })
                  db.books } := by
              refine { h with booksPos := ?_, booksLt := ?_ }
              · intro b hb
                rcases mem_updateFirst hb with h' | ⟨c, hc, _, rfl⟩
                · exact h.booksPos b h'
                · exact h.booksPos c hc
              · intro b hb
                rcases mem_updateFirst hb with h' | ⟨c, hc, _, rfl⟩
                · exact h.booksLt b h'
                · exact h.booksLt c hc
            split
            · rename_i requester hreq
              split
              · exact h
              · rename_i hbal
                simp only [postState]
                refine inv_completeApproval _ _ ?_ hcost
                have hrmem : requester ∈ db.users :=
                  List.mem_of_find?_eq_some hreq
                have hrid : requester.id = exchange.requesterId := by
                  simpa using List.find?_some hreq
                refine { h1 with
                  usersNodup := ?_
                  usersLt := ?_
                  transLt := ?_
                  balances := ?_
                  nonneg := ?_ }
                · refine nodup_ids_updateFirst (fun u => ?_) h.usersNodup
                  rfl
                · intro u hu'
                  rcases mem_updateFirst hu' with h' | ⟨b, hb, _, rfl⟩
                  · exact h.usersLt u h'
                  · exact h.usersLt b hb
                · intro t ht
                  rcases List.mem_append.mp ht with h' | h'
                  · exact h.transLt t h'
                  · simp only [List.mem_singleton] at h'
                    subst h'
                    rw [← hrid]
                    exact h.usersLt requester hrmem
                · exact balances_updateFirst h.usersNodup (fun u => rfl)
                    (fun u => sub_eq_add_neg _ _) h.balances
                · refine nonneg_updateFirst h.nonneg ?_
                  intro u hu' hp
                  have hueq : u = requester :=
                    eq_of_find?_nodup_ids h.usersNodup hreq u hu'
                      (by simpa using hp)
                  subst hueq
                  have : ¬ u.pointsBalance < exchange.pointsCost := by
                    simpa using hbal
                  simp only []
                  omega
            · simp only [postState]
              exact inv_completeApproval _ _ h1 hcost
        · split
          · simp only [postState]
            refine { h with booksPos := ?_, booksLt := ?_, exPos := ?_ }
            · intro b hb
              rcases mem_updateFirst hb with h' | ⟨c, hc, _, rfl⟩
              · exact h.booksPos b h'
              · exact h.booksPos c hc
            · intro b hb
              rcases mem_updateFirst hb with h' | ⟨c, hc, _, rfl⟩
              · exact h.booksLt b h'
              · exact h.booksLt c hc
            · intro e he
              rcases mem_updateFirst he with h' | ⟨c, hc, _, rfl⟩
              · exact h.exPos e h'
              · exact h.exPos c hc
          · simp only [postState]
            refine { h with exPos := ?_ }
            intro e he
            rcases mem_updateFirst he with h' | ⟨c, hc, _, rfl⟩
            · exact h.exPos e h'
            · exact h.exPos c hc

theorem inv_initDB : Inv initDB := by
  constructor <;> simp [initDB, userSum, openDisputesFor]

/-- Every reachable state satisfies the inductive invariant. -/
theorem inv_of_reachable {db : DB} (h : Reachable db) : Inv db := by
  induction h with
  | init => exact inv_initDB
  | step_register username email password h ih =>
    exact inv_register username email password ih
  | step_createBook uid title author condition pointValueArg aiBasePoints h ih =>
    exact inv_createBook uid title author condition pointValueArg aiBasePoints ih
  | step_purchasePoints uid amount usd txid h ih =>
    exact inv_purchasePoints uid amount usd txid ih
  | step_paymentWebhook txid st h ih =>
    exact inv_paymentWebhook txid st ih
  | step_createExchange uid bookId message h ih =>
    exact inv_createExchange uid bookId message ih
  | step_approveExchange exchangeId uid approve h ih =>
    exact inv_approveExchange exchangeId uid approve ih
  | step_cancelExchange exchangeId uid h ih =>
    exact inv_cancelExchange exchangeId uid ih
  | step_createDispute uid exchangeId reason description h ih =>
    exact inv_createDispute uid exchangeId reason description ih
  | step_recalculate bookId uid aiBasePoints h ih =>
    exact inv_recalculateBookValue bookId uid aiBasePoints ih

/-! ### The claims -/

/-- C1: at every state reachable by the engine's operations (register,
create book listing, purchase points, payment webhook completion,
createExchange, decideExchange, cancelExchange, fileDispute), every user's
stored cached balance (`users.points_balance`) equals the sum of the
amounts of that user's ledger entries (`point_transactions.amount`), and
this value is never negative. -/
theorem c1_cached_balance_equals_ledger_sum_and_nonneg {db : DB}
    (h : Reachable db) :
    ∀ u ∈ db.users,
      u.pointsBalance = userSum u.id db.transactions ∧ 0 ≤ u.pointsBalance :=
  fun u hu =>
    ⟨(inv_of_reachable h).balances u hu, (inv_of_reachable h).nonneg u hu⟩


/-- Counterexample to C4: on the spec's own scenario (excellent condition,
0 wishlist, 0 requests, 1 available copy) the code computes
`round(15 * 1.0 * 1.5) = round(22.5) = 22` — Python's `round` is
round-half-to-even — not the 23 the claim states. -/
theorem c4_counterexample :
    calculate_book_value 1 c4_db none none = 22 ∧
    calculate_book_value 1 c4_db none none ≠ 23 := by
  have hx : lowerString "excellent" = "excellent" := by decide
  have hd : lowerString "dune" = "dune" := by decide
  have hh : lowerString "herbert" = "herbert" := by decide
  have h : calculate_book_value 1 c4_db none none = 22 := by
    norm_num [calculate_book_value, c4_db, initDB, calculate_demand_score,
      calculate_rarity_score, calculate_condition_multiplier, basePointsMap,
      pyRound, List.find?, List.filter, hx, hd, hh]
  refine ⟨h, ?_⟩
  rw [h]
  decide


/-- C4 as amended: with the oracle disabled, `calculate_book_value` computes
exactly the spec's §4.1 formula over the item's condition and the marketplace
counts, with Python's round-half-to-even in place of the spec's `round`, and
its result is an integer at least 1; on the spec's scenario the value is 22
(see `c4_counterexample`), not 23. -/
theorem c4_amended_valuation {db : DB} {bid : Nat} {book : BookR}
    (hbook : db.books.find? (fun b => b.id == bid) = some book)
    (s : String) (hcond : s = lowerString book.condition)
    (w a c k : Nat)
    (hw : w = (db.wishlists.filter (fun x => x.bookId == bid)).length)
    (ha : a = (db.exchanges.filter (fun e => e.bookId == bid &&
      (e.status == ExchangeStatus.pending ||
        e.status == ExchangeStatus.approved))).length)
    (hc : c = (db.exchanges.filter (fun e => e.bookId == bid &&
      e.status == ExchangeStatus.completed)).length)
    (hk : k = (if (db.books.filter (fun b =>
        lowerString b.title == lowerString book.title &&
        lowerString b.author == lowerString book.author &&
        b.isAvailable == true)).length = 0 then 1
      else (db.books.filter (fun b =>
        lowerString b.title == lowerString book.title &&
        lowerString b.author == lowerString book.author &&
        b.isAvailable == true)).length)) :
    calculate_book_value bid db none none = spec_valuate s w a c k ∧
    1 ≤ calculate_book_value bid db none none := by
  subst hcond hw ha hc hk
  constructor
  · simp only [calculate_book_value, hbook, spec_valuate,
      calculate_demand_score, calculate_rarity_score,
      calculate_condition_multiplier, basePointsMap, beq_iff_eq]
    congr 1
    congr 1
    rw [min_comm]
    ring
  · exact one_le_calculate_book_value bid db none none

/-- Witness for the amended C4 at the scenario state. -/
theorem c4_amended_witness :
    calculate_book_value 1 c4_db none none =
      spec_valuate (lowerString "excellent") 0 0 0 1 ∧
    1 ≤ calculate_book_value 1 c4_db none none := by
  have hb : c4_db.books.find? (fun b => b.id == 1) =
      some ⟨1, 1, "dune", "herbert", "excellent", 15, true⟩ := rfl
  exact c4_amended_valuation hb (lowerString "excellent") rfl 0 0 0 1
    (by decide) (by decide) (by decide) (by decide)


/-- C5: with active obligation edges A→B and B→C, the cycle guard flags a
new request by C for A's book as circular, making `createExchange` fail
with the CircularExchange error and create no request row (the persisted
state is the rolled-back pre-state), while the guard clears a request by C
for the unrelated owner D, which is admitted and appends a PENDING request
row by requester C on D's book. -/
theorem c5_cycle_guard_scenario (i1 i2 b1 b2 : Nat) (c1 c2 : Int)
    (m1 m2 : Option String) :
    check_circular_exchange 3 1 (c5_db i1 i2 b1 b2 c1 c2 m1 m2) none =
      (true, circularMessage) ∧
    createExchange 3 100 none (c5_db i1 i2 b1 b2 c1 c2 m1 m2) =
      .error .circularExchange ∧
    postState (createExchange 3 100 none (c5_db i1 i2 b1 b2 c1 c2 m1 m2))
        (c5_db i1 i2 b1 b2 c1 c2 m1 m2) =
      c5_db i1 i2 b1 b2 c1 c2 m1 m2 ∧
    check_circular_exchange 3 4 (c5_db i1 i2 b1 b2 c1 c2 m1 m2) none =
      (false, "") ∧
    (createExchange 3 101 none (c5_db i1 i2 b1 b2 c1 c2 m1 m2)).isOk = true ∧
    (postState (createExchange 3 101 none (c5_db i1 i2 b1 b2 c1 c2 m1 m2))
        (c5_db i1 i2 b1 b2 c1 c2 m1 m2)).exchanges.getLast? =
      some ⟨3, 101, 3, 4, .pending, 5, none⟩ :=
  ⟨rfl, rfl, rfl, rfl, rfl, rfl⟩

/-- C7: a user whose cached balance is strictly below the item's current
point value gets InsufficientFunds from `createExchange` (the item being
present, available, not the caller's own, and clear of the cycle guard, the
earlier checks on the path); the session rolls back, so persisted state is
the unchanged pre-state — the item stays available and no ExchangeRequest
row is created. -/
theorem c7_create_insufficient_funds {db : DB} {uid bid : Nat} {u : UserR}
    {book : BookR} (m : Option String)
    (hu : db.users.find? (fun x => x.id == uid) = some u)
    (hbook : db.books.find? (fun b => b.id == bid) = some book)
    (havail : book.isAvailable = true)
    (hnotown : book.ownerId ≠ uid)
    (hcyc : (check_circular_exchange uid book.ownerId db none).1 = false)
    (hbal : u.pointsBalance < book.pointValue) :
    createExchange uid bid m db = .error .insufficientPoints ∧
    postState (createExchange uid bid m db) db = db := by
  have h1 : createExchange uid bid m db = .error .insufficientPoints := by
    simp [createExchange, hu, hbook, havail, hnotown, hcyc, hbal]
  exact ⟨h1, by rw [h1]; rfl⟩


/-- Witness for C7: balance 10 against cost 12. -/
theorem c7_witness :
    createExchange 2 1 none c7_db = .error .insufficientPoints ∧
    postState (createExchange 2 1 none c7_db) c7_db = c7_db :=
  c7_create_insufficient_funds none rfl rfl rfl (by decide) rfl (by decide)

/-- C10: in the approve branch, the balance re-check and the debit are
guarded by `if requester:` — when the requester's user row is absent the
handler raises no error, still transfers book ownership to the (absent)
requester id, marks the book available, posts only the EARNED credit entry
for the previous owner, and sets the status to COMPLETED, leaving the
completed exchange with a single ledger entry instead of the usual pair. -/
theorem c10_missing_requester_single_entry {db : DB} {exchangeId uid : Nat}
    {ex : ExchangeRequestR} {book : BookR} {oldOwner : UserR}
    (hex : db.exchanges.find? (fun e => e.id == exchangeId) = some ex)
    (hauth : (db.users.find? (fun x => x.id == uid)).isSome = true)
    (hown : (ex.ownerId == uid) = true)
    (hbook : db.books.find? (fun b => b.id == ex.bookId) = some book)
    (hreqnone : db.users.find? (fun x => x.id == ex.requesterId) = none)
    (hold : db.users.find? (fun x => x.id == book.ownerId) = some oldOwner) :
    ∃ db', approveExchange exchangeId uid true db = .ok db' ∧
      db'.books.find? (fun b => b.id == ex.bookId) =
        some { book with ownerId := ex.requesterId, isAvailable := true } ∧
      db'.transactions = db.transactions ++
        [⟨book.ownerId, ex.pointsCost, .earned, some ex.id⟩] ∧
      db'.exchanges.find? (fun e => e.id == ex.id) =
        some { ex with status := .completed } := by
  obtain ⟨u0, hu0⟩ := Option.isSome_iff_exists.mp hauth
  have hexid : ex.id = exchangeId := by
    simpa using List.find?_some hex
  simp only [approveExchange, hu0, hex, hbook, hreqnone, hown,
    completeApproval, hold, Bool.not_true, Bool.false_eq_true, if_false,
    if_true]
  refine ⟨_, rfl, ?_, ?_, ?_⟩
  · have hb2 : List.find? (fun b => b.id == ex.bookId)
        (updateFirst (fun b => b.id == ex.bookId)
          (fun b => { b with ownerId := ex.requesterId, isAvailable := true })
          db.books) =
        some { book with ownerId := ex.requesterId, isAvailable := true } := by
      rw [find?_updateFirst (p := fun b => b.id == ex.bookId)
        (f := fun b : BookR =>
          { b with ownerId := ex.requesterId, isAvailable := true })
        (fun b => rfl), hbook]
      rfl
    exact hb2
  · rfl
  · have he2 : List.find? (fun e => e.id == ex.id)
        (updateFirst (fun e => e.id == ex.id)
          (fun e => { e with status := ExchangeStatus.completed })
          db.exchanges) =
        some { ex with status := ExchangeStatus.completed } := by
      rw [find?_updateFirst (p := fun e => e.id == ex.id)
        (f := fun e : ExchangeRequestR =>
          { e with status := ExchangeStatus.completed })
        (fun e => rfl)]
      conv_lhs => rw [hexid]
      rw [hex]
      rfl
    exact he2


/-- Witness for C10 at the scenario state. -/
theorem c10_witness :
    ∃ db', approveExchange 1 1 true c10_db = .ok db' ∧
      db'.books.find? (fun b => b.id == 1) =
        some ⟨1, 2, "bt", "ba", "good", 12, true⟩ ∧
      db'.transactions = c10_db.transactions ++
        [⟨1, 12, .earned, some 1⟩] ∧
      db'.exchanges.find? (fun e => e.id == 1) =
        some ⟨1, 1, 2, 1, .completed, 12, none⟩ := by
  have h1 : c10_db.exchanges.find? (fun e => e.id == 1) =
      some ⟨1, 1, 2, 1, .pending, 12, none⟩ := rfl
  have h2 : c10_db.books.find? (fun b => b.id == 1) =
      some ⟨1, 1, "bt", "ba", "good", 12, true⟩ := rfl
  have h3 : c10_db.users.find? (fun x => x.id == 1) =
      some ⟨1, "owner", "o@x", 7⟩ := rfl
  refine c10_missing_requester_single_entry h1 ?_ ?_ h2 ?_ h3 <;> rfl

/-- C2: when the owner approves a PENDING exchange but the requester's
current cached balance is strictly below the pointsCost snapshot, the call
fails with `requesterInsufficientPoints` and every piece of persisted state
is left unchanged: the whole state equals the pre-state, so the exchange
row is still the PENDING row, the book keeps its owner and availability
flag, and no ledger entry is created. -/
theorem c2_approve_insufficient_funds_rolls_back {db : DB}
    {exchangeId uid : Nat} {exchange : ExchangeRequestR} {book : BookR}
    {requester : UserR}
    (hauth : (db.users.find? (fun x => x.id == uid)).isSome = true)
    (hex : db.exchanges.find? (fun e => e.id == exchangeId) = some exchange)
    (hpend : exchange.status = .pending)
    (hown : (exchange.ownerId == uid) = true)
    (hbook : db.books.find? (fun b => b.id == exchange.bookId) = some book)
    (hreq : db.users.find? (fun x => x.id == exchange.requesterId) =
      some requester)
    (hbal : requester.pointsBalance < exchange.pointsCost) :
    approveExchange exchangeId uid true db =
      .error .requesterInsufficientPoints ∧
    postState (approveExchange exchangeId uid true db) db = db ∧
    (postState (approveExchange exchangeId uid true db) db).exchanges.find?
      (fun e => e.id == exchangeId) = some exchange ∧
    exchange.status = .pending := by
  obtain ⟨u0, hu0⟩ := Option.isSome_iff_exists.mp hauth
  have h : approveExchange exchangeId uid true db =
      .error .requesterInsufficientPoints := by
    simp only [approveExchange, hu0, hex, hbook, hreq, hown, Bool.not_true,
      Bool.false_eq_true, if_false, if_true]
    rw [if_pos hbal]
  refine ⟨h, ?_, ?_, hpend⟩
  · simp only [h, postState]
  · simp only [h, postState]
    exact hex


/-- Witness for C2: balance 10 against a pointsCost snapshot of 12. -/
theorem c2_witness :
    approveExchange 1 1 true c2_db = .error .requesterInsufficientPoints ∧
    postState (approveExchange 1 1 true c2_db) c2_db = c2_db ∧
    (postState (approveExchange 1 1 true c2_db) c2_db).exchanges.find?
      (fun e => e.id == 1) =
        some (⟨1, 1, 2, 1, .pending, 12, none⟩ : ExchangeRequestR) ∧
    (⟨1, 1, 2, 1, .pending, 12, none⟩ : ExchangeRequestR).status =
      .pending := by
  have h1 : c2_db.exchanges.find? (fun e => e.id == 1) =
      some (⟨1, 1, 2, 1, .pending, 12, none⟩ : ExchangeRequestR) := rfl
  have h2 : c2_db.books.find? (fun b => b.id == 1) =
      some (⟨1, 1, "bt", "ba", "good", 12, false⟩ : BookR) := rfl
  have h3 : c2_db.users.find? (fun x => x.id == 2) =
      some (⟨2, "req", "r@x", 10⟩ : UserR) := rfl
  exact c2_approve_insufficient_funds_rolls_back rfl h1 rfl rfl h2 h3
    (by decide)

theorem trace1_register : register "alice" "a@x" "password1" initDB = .ok dbT1 := rfl

theorem trace2_register : register "bob" "b@x" "password1" dbT1 = .ok dbT2 := rfl

theorem trace3_createBook :
    createBook 1 "dune" "herbert" "excellent" none none dbT2 = .ok dbT3 := by
  have hfind : dbT3pre.books.find? (fun b => b.id == 1) =
      some ⟨1, 1, "dune", "herbert", "excellent", 15, true⟩ := rfl
  have hx : lowerString "excellent" = "excellent" := by decide
  have hd : lowerString "dune" = "dune" := by decide
  have hh : lowerString "herbert" = "herbert" := by decide
  have hv : calculate_book_value 1 dbT3pre none none = 22 := by
    norm_num [calculate_book_value, dbT3pre, initDB, calculate_demand_score,
      calculate_rarity_score, calculate_condition_multiplier, basePointsMap,
      pyRound, List.find?, List.filter, hx, hd, hh]
  have h0 : createBook 1 "dune" "herbert" "excellent" none none dbT2 =
      .ok (update_book_value 1 none dbT3pre).2 := rfl
  rw [h0]
  simp only [update_book_value, hfind]
  rw [hv]
  rfl

theorem trace4_purchase : purchasePoints 2 100 5 "TXN1" dbT3 = .ok dbT4 := by
  have hu : dbT3.users.find? (fun u => u.id == 2) =
      some ⟨2, "bob", "b@x", 0⟩ := rfl
  have hpp : pointPricing 100 = some 5 := rfl
  have hp : ¬((1 : ℚ)/100 < |(5 : ℚ) - 5|) := by norm_num
  simp only [purchasePoints, hu, hpp]
  rw [if_neg hp]
  rfl

theorem trace5_createExchange : createExchange 2 1 none dbT4 = .ok dbT5 := rfl

theorem trace6_approve : approveExchange 1 1 true dbT5 = .ok dbT6 := rfl

theorem trace7_cancel : cancelExchange 1 2 dbT5 = .ok dbT7 := rfl

theorem trace8_createExchange : createExchange 2 1 none dbT7 = .ok dbT8 := rfl

theorem trace9_reject : approveExchange 1 1 false dbT8 = .ok dbT9 := rfl

theorem reach_dbT1 : Reachable dbT1 := by
  have h := Reachable.step_register "alice" "a@x" "password1" Reachable.init
  rw [trace1_register] at h
  exact h

theorem reach_dbT2 : Reachable dbT2 := by
  have h := Reachable.step_register "bob" "b@x" "password1" reach_dbT1
  rw [trace2_register] at h
  exact h

theorem reach_dbT3 : Reachable dbT3 := by
  have h := Reachable.step_createBook 1 "dune" "herbert" "excellent" none none
    reach_dbT2
  rw [trace3_createBook] at h
  exact h

theorem reach_dbT4 : Reachable dbT4 := by
  have h := Reachable.step_purchasePoints 2 100 5 "TXN1" reach_dbT3
  rw [trace4_purchase] at h
  exact h

theorem reach_dbT5 : Reachable dbT5 := by
  have h := Reachable.step_createExchange 2 1 none reach_dbT4
  rw [trace5_createExchange] at h
  exact h

theorem reach_dbT6 : Reachable dbT6 := by
  have h := Reachable.step_approveExchange 1 1 true reach_dbT5
  rw [trace6_approve] at h
  exact h

theorem reach_dbT7 : Reachable dbT7 := by
  have h := Reachable.step_cancelExchange 1 2 reach_dbT5
  rw [trace7_cancel] at h
  exact h

theorem reach_dbT8 : Reachable dbT8 := by
  have h := Reachable.step_createExchange 2 1 none reach_dbT7
  rw [trace8_createExchange] at h
  exact h

theorem reach_dbT9 : Reachable dbT9 := by
  have h := Reachable.step_approveExchange 1 1 false reach_dbT8
  rw [trace9_reject] at h
  exact h

/-- Witness for C1 at the reachable state `dbT6` (after a completed
exchange), instantiated at alice's user row. -/
theorem c1_witness :
    (⟨1, "alice", "a@x", 32⟩ : UserR).pointsBalance =
      userSum (⟨1, "alice", "a@x", 32⟩ : UserR).id dbT6.transactions ∧
    0 ≤ (⟨1, "alice", "a@x", 32⟩ : UserR).pointsBalance :=
  c1_cached_balance_equals_ledger_sum_and_nonneg reach_dbT6
    ⟨1, "alice", "a@x", 32⟩ (by decide)


/-- C8: at a reachable state in which the caller and the exchange exist,
`create_dispute` succeeds exactly when the caller is a party to the
exchange, the status is APPROVED or COMPLETED, and no open dispute is on
file for it; on success it appends a dispute with status "open" and sets
the exchange status to DISPUTED; and at most one open dispute per exchange
exists, both before the call and after a successful one. -/
theorem c8_dispute_success_iff_and_unique {db : DB} {uid exchangeId : Nat}
    (reason description : String) {exchange : ExchangeRequestR}
    (hreach : Reachable db)
    (hu : (db.users.find? (fun x => x.id == uid)).isSome = true)
    (hex : db.exchanges.find? (fun e => e.id == exchangeId) = some exchange) :
    (∀ eid, openDisputesFor eid db.disputes ≤ 1) ∧
    ((createDispute uid exchangeId reason description db).isOk = true ↔
      (exchange.requesterId == uid || exchange.ownerId == uid) = true ∧
      (exchange.status == ExchangeStatus.approved ||
        exchange.status == ExchangeStatus.completed) = true ∧
      db.disputes.find?
        (fun d => d.exchangeId == exchangeId && d.status == "open") = none) ∧
    (∀ db', createDispute uid exchangeId reason description db = .ok db' →
      db'.disputes = db.disputes ++
        [⟨db.nextDisputeId, exchangeId, uid, reason, description, "open"⟩] ∧
      db'.exchanges.find? (fun e => e.id == exchangeId) =
        some { exchange with status := ExchangeStatus.disputed } ∧
      ∀ eid, openDisputesFor eid db'.disputes ≤ 1) := by
  obtain ⟨u0, hu0⟩ := Option.isSome_iff_exists.mp hu
  refine ⟨(inv_of_reachable hreach).disputesUniq, ?_, ?_⟩
  · simp only [createDispute, hu0, hex]
    cases ha : exchange.requesterId == uid <;>
      cases hb : exchange.ownerId == uid <;>
        cases hst : (exchange.status == ExchangeStatus.approved ||
            exchange.status == ExchangeStatus.completed) <;>
          cases hnd : db.disputes.find?
              (fun d => d.exchangeId == exchangeId && d.status == "open") <;>
            simp [Except.isOk, Except.toBool]
  · intro db' hok
    have hr' : Reachable db' := by
      have h := Reachable.step_createDispute uid exchangeId reason description
        hreach
      rw [hok] at h
      exact h
    simp only [createDispute, hu0, hex] at hok
    split at hok
    · simp at hok
    split at hok
    · simp at hok
    split at hok
    · simp at hok
    injection hok with hdb
    subst hdb
    refine ⟨rfl, ?_, (inv_of_reachable hr').disputesUniq⟩
    have he2 : List.find? (fun e => e.id == exchangeId)
        (updateFirst (fun e => e.id == exchangeId)
          (fun e => { e with status := ExchangeStatus.disputed })
          db.exchanges) =
        some { exchange with status := ExchangeStatus.disputed } := by
      rw [find?_updateFirst (p := fun e => e.id == exchangeId)
        (f := fun e : ExchangeRequestR =>
          { e with status := ExchangeStatus.disputed })
        (fun e => rfl), hex]
      rfl
    exact he2

/-- Witness for C8 at the reachable state `dbT6`, whose exchange 1 is
COMPLETED, the caller (user 1) its owner, with no dispute on file. -/
theorem c8_witness :
    (∀ eid, openDisputesFor eid dbT6.disputes ≤ 1) ∧
    ((createDispute 1 1 "r" "d" dbT6).isOk = true ↔
      ((2 : Nat) == 1 || (1 : Nat) == 1) = true ∧
      (ExchangeStatus.completed == ExchangeStatus.approved ||
        ExchangeStatus.completed == ExchangeStatus.completed) = true ∧
      dbT6.disputes.find?
        (fun d => d.exchangeId == 1 && d.status == "open") = none) ∧
    (∀ db', createDispute 1 1 "r" "d" dbT6 = .ok db' →
      db'.disputes = dbT6.disputes ++ [⟨1, 1, 1, "r", "d", "open"⟩] ∧
      db'.exchanges.find? (fun e => e.id == 1) =
        some ⟨1, 1, 2, 1, .disputed, 22, none⟩ ∧
      ∀ eid, openDisputesFor eid db'.disputes ≤ 1) := by
  have hu : (dbT6.users.find? (fun x => x.id == 1)).isSome = true := rfl
  have hex : dbT6.exchanges.find? (fun e => e.id == 1) =
      some (⟨1, 1, 2, 1, .completed, 22, none⟩ : ExchangeRequestR) := rfl
  exact c8_dispute_success_iff_and_unique "r" "d" reach_dbT6 hu hex

/-- C3: refuted on the code — `approve_exchange` never inspects the
exchange's status. At the reachable state `dbT6`, whose exchange 1 is
already COMPLETED, a second approve call by the owner raises no error and
posts a second debit/credit pair, leaving four ledger entries tied to the
exchange instead of two. -/
theorem c3_counterexample :
    Reachable dbT6 ∧
    dbT6.exchanges.find? (fun e => e.id == 1) =
      some ⟨1, 1, 2, 1, .completed, 22, none⟩ ∧
    ((dbT6.transactions.filter
      (fun t => t.relatedExchangeId == some 1)).length = 2) ∧
    (approveExchange 1 1 true dbT6).isOk = true ∧
    ((postState (approveExchange 1 1 true dbT6) dbT6).transactions.filter
      (fun t => t.relatedExchangeId == some 1)).length = 4 :=
  ⟨reach_dbT6, rfl, rfl, rfl, rfl⟩

/-- C6: refuted on the code — the reject branch of `approve_exchange` does
not check the exchange's status either, so "rejecting" the CANCELLED
request 1 at the reachable state `dbT8` flips the book available while the
PENDING request 2 on the same book stays active: at the resulting
reachable state `dbT9` the claimed availability iff fails. -/
theorem c6_counterexample :
    Reachable dbT9 ∧
    ¬ (∀ b ∈ dbT9.books, (b.isAvailable = false ↔
        ∃ e ∈ dbT9.exchanges, e.bookId = b.id ∧
          (e.status = .pending ∨ e.status = .approved))) ∧
    dbT9.books.find? (fun b => b.id == 1) =
      some ⟨1, 1, "dune", "herbert", "excellent", 22, true⟩ ∧
    dbT9.exchanges.find? (fun e => e.id == 2) =
      some ⟨2, 1, 2, 1, .pending, 22, none⟩ :=
  ⟨reach_dbT9, by decide, rfl, rfl⟩

/-- Counterexample to C9: at the reachable state `dbT5` the book is
unavailable (a PENDING request holds it) with stored value 22, yet the
owner's recalculation request succeeds and rewrites the stored value to 23
— `recalculate_book_value` never reads the availability flag. -/
theorem c9_counterexample :
    Reachable dbT5 ∧
    dbT5.books.find? (fun b => b.id == 1) =
      some ⟨1, 1, "dune", "herbert", "excellent", 22, false⟩ ∧
    ∃ db', recalculateBookValue 1 1 none dbT5 = .ok db' ∧
      db'.books.find? (fun b => b.id == 1) =
        some ⟨1, 1, "dune", "herbert", "excellent", 23, false⟩ := by
  refine ⟨reach_dbT5, rfl, ?_⟩
  have hx : lowerString "excellent" = "excellent" := by decide
  have hd : lowerString "dune" = "dune" := by decide
  have hh : lowerString "herbert" = "herbert" := by decide
  have hs1 : (ExchangeStatus.pending == ExchangeStatus.pending) = true := by
    decide
  have hs2 : (ExchangeStatus.pending == ExchangeStatus.approved) = false := by
    decide
  have hs3 : (ExchangeStatus.pending == ExchangeStatus.completed) = false := by
    decide
  have hv : calculate_book_value 1 dbT5 none none = 23 := by
    norm_num [calculate_book_value, dbT5, initDB, calculate_demand_score,
      calculate_rarity_score, calculate_condition_multiplier, basePointsMap,
      pyRound, List.find?, List.filter, hx, hd, hh, hs1, hs2, hs3]
  have hfind : dbT5.books.find? (fun b => b.id == 1) =
      some ⟨1, 1, "dune", "herbert", "excellent", 22, false⟩ := rfl
  have h0 : recalculateBookValue 1 1 none dbT5 =
      .ok (update_book_value 1 none dbT5).2 := rfl
  rw [h0]
  refine ⟨_, rfl, ?_⟩
  simp only [update_book_value, hfind]
  rw [hv]
  rfl

/-- C9 as amended: the owner's explicit recalculation request recomputes
and persists the book's current value whenever the book exists and the
caller owns it, with no regard to the availability flag; the users, the
exchange and the ledger tables are untouched. -/
theorem c9_amended_recalculate {db : DB} {bookId uid : Nat} {book : BookR}
    (ai : Option Int)
    (hu : (db.users.find? (fun x => x.id == uid)).isSome = true)
    (hbook : db.books.find? (fun b => b.id == bookId) = some book)
    (hown : (book.ownerId == uid) = true) :
    ∃ db', recalculateBookValue bookId uid ai db = .ok db' ∧
      db'.books.find? (fun b => b.id == bookId) =
        some { book with
          pointValue := calculate_book_value bookId db none ai } ∧
      db'.users = db.users ∧ db'.exchanges = db.exchanges ∧
      db'.transactions = db.transactions := by
  obtain ⟨u0, hu0⟩ := Option.isSome_iff_exists.mp hu
  simp only [recalculateBookValue, hu0, hbook, hown, Bool.not_true,
    Bool.false_eq_true, if_false, update_book_value]
  refine ⟨_, rfl, ?_, rfl, rfl, rfl⟩
  have hb2 : List.find? (fun b => b.id == bookId)
      (updateFirst (fun b => b.id == bookId)
        (fun b =>
          { b with pointValue := calculate_book_value bookId db none ai })
        db.books) =
      some { book with
        pointValue := calculate_book_value bookId db none ai } := by
    rw [find?_updateFirst (p := fun b => b.id == bookId)
      (f := fun b : BookR =>
        { b with pointValue := calculate_book_value bookId db none ai })
      (fun b => rfl), hbook]
    rfl
  exact hb2

/-- Witness for the amended C9 at `dbT5`, where the book is unavailable. -/
theorem c9_amended_witness :
    ∃ db', recalculateBookValue 1 1 none dbT5 = .ok db' ∧
      db'.books.find? (fun b => b.id == 1) =
        some ⟨1, 1, "dune", "herbert", "excellent",
          calculate_book_value 1 dbT5 none none, false⟩ ∧
      db'.users = dbT5.users ∧ db'.exchanges = dbT5.exchanges ∧
      db'.transactions = dbT5.transactions := by
  have hu : (dbT5.users.find? (fun x => x.id == 1)).isSome = true := rfl
  have hb : dbT5.books.find? (fun b => b.id == 1) =
      some (⟨1, 1, "dune", "herbert", "excellent", 22, false⟩ : BookR) := rfl
  exact c9_amended_recalculate none hu hb rfl

end Bookie
